import Mathlib

/-!
Verification of the landing-page analysis pipeline in `src/app.py`.

Python strings are modelled as `List Char` (Python indexing/slicing is by
code point, which matches `List Char` exactly).  Python dicts of JSON data
are modelled as association lists with first-insertion-position,
last-value-wins assignment, matching CPython `dict` semantics.  The
`json.loads` library call is modelled by an executable recursive-descent
parser over the JSON grammar accepted by CPython's `json` module (strict
mode); float literals are represented by their exact rational value.
-/

/-- The `'{'` character (written via its code point). -/
def lbraceChar : Char := Char.ofNat 123

/-- The `'}'` character (written via its code point). -/
def rbraceChar : Char := Char.ofNat 125

/-- The `'"'` character. -/
def quoteChar : Char := Char.ofNat 34

/-- The backslash character. -/
def backslashChar : Char := Char.ofNat 92

/-- Whitespace for Python `str.strip()` and regex `\s` (ASCII whitespace
plus the common Unicode whitespace code points). -/
def isPySpaceChar (c : Char) : Bool :=
  c == ' ' || c == '\t' || c == '\n' || c == '\r' ||
  c == Char.ofNat 11 || c == Char.ofNat 12 ||
  c == Char.ofNat 0x1c || c == Char.ofNat 0x1d || c == Char.ofNat 0x1e ||
  c == Char.ofNat 0x1f || c == Char.ofNat 0x85 || c == Char.ofNat 0xa0

/-- Python `text.strip()`. -/
def pyStrip (cs : List Char) : List Char :=
  ((cs.dropWhile isPySpaceChar).reverse.dropWhile isPySpaceChar).reverse

/-- All start positions (ascending) at which `sub` occurs in `cs`. -/
def subPositionsAux (sub : List Char) : List Char → Nat → List Nat
  | [], i => if sub.isEmpty then [i] else []
  | c :: cs, i =>
    (if sub.isPrefixOf (c :: cs) then [i] else []) ++ subPositionsAux sub cs (i + 1)

/-- All start positions at which `sub` occurs in `cs`. -/
def subPositions (sub cs : List Char) : List Nat :=
  subPositionsAux sub cs 0

/-- Python `sub in cs`. -/
def containsSub (sub cs : List Char) : Bool :=
  !(subPositions sub cs).isEmpty

/-- Python `cs.find(sub)` (as an `Option` instead of `-1`). -/
def findSub (sub cs : List Char) : Option Nat :=
  (subPositions sub cs).head?

/-- Python `cs.rfind(sub)` (as an `Option` instead of `-1`). -/
def rfindSub (sub cs : List Char) : Option Nat :=
  (subPositions sub cs).getLast?

/-- Python slicing `cs[a:b]` (for `0 ≤ a ≤ b`). -/
def pySlice (cs : List Char) (a b : Nat) : List Char :=
  ((cs.drop a).take (b - a))

/-- First index of character `c` in `l` (Python `str.find` of a single char). -/
def firstIdxChar (c : Char) : List Char → Option Nat
  | [] => none
  | d :: rest => if d == c then some 0 else (firstIdxChar c rest).map (· + 1)

/-- Last index of character `c` in `l` (Python `str.rfind` of a single char). -/
def lastIdxChar (c : Char) (l : List Char) : Option Nat :=
  (firstIdxChar c l.reverse).map (fun i => l.length - 1 - i)

/-- Python `text.split(sep)` for a single-character separator: splits at
every occurrence, keeping empty pieces. -/
def splitOnChar (sep : Char) : List Char → List (List Char)
  | [] => [[]]
  | c :: cs =>
    let r := splitOnChar sep cs
    if c == sep then [] :: r
    else
      match r with
      | [] => [[c]]
      | l :: ls => (c :: l) :: ls

/-- JSON values as produced by CPython `json.loads`.  Integer literals
become `jint`; literals with a fraction or exponent become `jnum` holding
the literal's exact rational value; `NaN` / `Infinity` / `-Infinity`
(accepted by CPython by default) get their own constructors. -/
inductive Json where
  | jnull
  | jbool (b : Bool)
  | jint (n : Int)
  | jnum (q : ℚ)
  | jnan
  | jinf (neg : Bool)
  | jstr (s : List Char)
  | jarr (xs : List Json)
  | jobj (fields : List (List Char × Json))

/-- A record as assembled by the pipeline: a Python dict from string keys
to JSON values, in insertion order. -/
def RecordObj : Type := List (List Char × Json)

/-- CPython dict assignment `d[k] = v`: overwrites the value in place if
the key is present (keeping its original position), else appends. -/
def objSet (fields : List (List Char × Json)) (k : List Char) (v : Json) :
    List (List Char × Json) :=
  match fields with
  | [] => [(k, v)]
  | (k', v') :: rest =>
    if k' = k then (k, v) :: rest else (k', v') :: objSet rest k v

/-- CPython dict lookup `d.get(k)`. -/
def objGet (fields : List (List Char × Json)) (k : List Char) : Option Json :=
  match fields with
  | [] => none
  | (k', v') :: rest => if k' = k then some v' else objGet rest k

/-- CPython `dict(pairs)`: left fold of dict assignment over the pair list. -/
def pairsToDict (pairs : List (List Char × Json)) : List (List Char × Json) :=
  pairs.foldl (fun d kv => objSet d kv.1 kv.2) []

theorem objGet_objSet_same (d : List (List Char × Json)) (k : List Char) (v : Json) :
    objGet (objSet d k v) k = some v := by
  induction d with
  | nil => simp [objSet, objGet]
  | cons hd tl ih =>
    obtain ⟨k', v'⟩ := hd
    by_cases h : k' = k <;> simp [objSet, objGet, h, ih]

theorem objGet_objSet_other (d : List (List Char × Json)) (k k' : List Char) (v : Json)
    (h : k' ≠ k) : objGet (objSet d k' v) k = objGet d k := by
  induction d with
  | nil => simp [objSet, objGet, h]
  | cons hd tl ih =>
    obtain ⟨k0, v0⟩ := hd
    by_cases h0 : k0 = k'
    · subst h0
      simp [objSet, objGet, h]
    · by_cases h1 : k0 = k <;> simp [objSet, objGet, h0, h1, ih, Ne.symm h]

/-- JSON grammar whitespace (CPython `json`: space, tab, newline, carriage
return). -/
def isJsonWs (c : Char) : Bool :=
  c == ' ' || c == '\t' || c == '\n' || c == '\r'

/-- Skip JSON whitespace. -/
def skipJsonWs (cs : List Char) : List Char :=
  cs.dropWhile isJsonWs

/-- Decimal digit test. -/
def isDigitChar (c : Char) : Bool :=
  decide (48 ≤ c.toNat) && decide (c.toNat ≤ 57)

/-- Value of a decimal digit string. -/
def digitsToNat (ds : List Char) : Nat :=
  ds.foldl (fun a c => a * 10 + (c.toNat - 48)) 0

/-- Value of a hex digit, if any. -/
def hexDigitVal (c : Char) : Option Nat :=
  if isDigitChar c then some (c.toNat - 48)
  else if decide (97 ≤ c.toNat) && decide (c.toNat ≤ 102) then some (c.toNat - 87)
  else if decide (65 ≤ c.toNat) && decide (c.toNat ≤ 70) then some (c.toNat - 55)
  else none

/-- Value of four hex digits, if all four are hex digits. -/
def hex4 (a b c d : Char) : Option Nat :=
  match hexDigitVal a, hexDigitVal b, hexDigitVal c, hexDigitVal d with
  | some x, some y, some z, some w => some (((x * 16 + y) * 16 + z) * 16 + w)
  | _, _, _, _ => none

/-- Body of a JSON string literal, after the opening quote.  Returns the
decoded characters and the remaining input after the closing quote.
Models CPython strict string scanning: control characters below 0x20 must
be escaped, `\uXXXX` escapes are decoded, and surrogate pairs are
combined.  The fuel starts at the input length plus one; every step
consumes at least one character, so it never runs out. -/
def parseJsonString : Nat → List Char → Option (List Char × List Char)
  | 0, _ => none
  | fuel + 1, cs =>
    match cs with
    | [] => none
    | c :: rest =>
      if c == quoteChar then some ([], rest)
      else if c == backslashChar then
        match rest with
        | [] => none
        | e :: rest2 =>
          if e == quoteChar || e == '/' || e == backslashChar then
            (parseJsonString fuel rest2).map (fun p => (e :: p.1, p.2))
          else if e == 'b' then
            (parseJsonString fuel rest2).map (fun p => (Char.ofNat 8 :: p.1, p.2))
          else if e == 'f' then
            (parseJsonString fuel rest2).map (fun p => (Char.ofNat 12 :: p.1, p.2))
          else if e == 'n' then
            (parseJsonString fuel rest2).map (fun p => ('\n' :: p.1, p.2))
          else if e == 'r' then
            (parseJsonString fuel rest2).map (fun p => ('\r' :: p.1, p.2))
          else if e == 't' then
            (parseJsonString fuel rest2).map (fun p => ('\t' :: p.1, p.2))
          else if e == 'u' then
            match rest2 with
            | h1 :: h2 :: h3 :: h4 :: rest3 =>
              match hex4 h1 h2 h3 h4 with
              | none => none
              | some n =>
                if decide (0xd800 ≤ n) && decide (n ≤ 0xdbff) then
                  match rest3 with
                  | b1 :: u1 :: k1 :: k2 :: k3 :: k4 :: rest4 =>
                    if b1 == backslashChar && u1 == 'u' then
                      match hex4 k1 k2 k3 k4 with
                      | some n2 =>
                        if decide (0xdc00 ≤ n2) && decide (n2 ≤ 0xdfff) then
                          (parseJsonString fuel rest4).map
                            (fun p =>
                              (Char.ofNat (0x10000 + (n - 0xd800) * 0x400 + (n2 - 0xdc00)) :: p.1,
                               p.2))
                        else (parseJsonString fuel rest3).map (fun p => (Char.ofNat n :: p.1, p.2))
                      | none => (parseJsonString fuel rest3).map (fun p => (Char.ofNat n :: p.1, p.2))
                    else (parseJsonString fuel rest3).map (fun p => (Char.ofNat n :: p.1, p.2))
                  | _ => (parseJsonString fuel rest3).map (fun p => (Char.ofNat n :: p.1, p.2))
                else (parseJsonString fuel rest3).map (fun p => (Char.ofNat n :: p.1, p.2))
            | _ => none
          else none
      else if decide (c.toNat < 0x20) then none
      else (parseJsonString fuel rest).map (fun p => (c :: p.1, p.2))

/-- Powers of ten over `ℚ` for an integer exponent. -/
def pow10 (e : Int) : ℚ :=
  if 0 ≤ e then ((10 : ℚ) ^ e.toNat) else ((10 : ℚ) ^ (-e).toNat)⁻¹

/-- A JSON number literal at the head of the input, per CPython's
`NUMBER_RE` regex `(-?(?:0|[1-9]\d*))(\.\d+)?([eE][-+]?\d+)?`: an optional
fraction or exponent group is consumed only when it matches completely.
Integer literals produce `jint`; otherwise the exact rational value of the
literal is produced. -/
def parseNumber (cs : List Char) : Option (Json × List Char) :=
  let signed := match cs with
    | c :: r => if c == '-' then some (true, r) else some (false, cs)
    | [] => none
  match signed with
  | none => none
  | some (neg, cs1) =>
    let intPart : Option (List Char × List Char) := match cs1 with
      | c :: r =>
        if c == '0' then some ([c], r)
        else if isDigitChar c then
          some (c :: r.takeWhile isDigitChar, r.dropWhile isDigitChar)
        else none
      | [] => none
    match intPart with
    | none => none
    | some (ids, rest1) =>
      let fracPart : Option (List Char) × List Char := match rest1 with
        | c :: r =>
          if c == '.' then
            let ds := r.takeWhile isDigitChar
            if ds.isEmpty then (none, rest1) else (some ds, r.dropWhile isDigitChar)
          else (none, rest1)
        | [] => (none, rest1)
      let (fds, rest2) := fracPart
      let expPart : Option Int × List Char := match rest2 with
        | c :: r =>
          if c == 'e' || c == 'E' then
            let (esign, r2) := match r with
              | d :: r' => if d == '-' then (true, r') else if d == '+' then (false, r') else (false, r)
              | [] => (false, r)
            let ds := r2.takeWhile isDigitChar
            if ds.isEmpty then (none, rest2)
            else
              (some (if esign then -(digitsToNat ds : Int) else (digitsToNat ds : Int)),
               r2.dropWhile isDigitChar)
          else (none, rest2)
        | [] => (none, rest2)
      let (ex, rest3) := expPart
      match fds, ex with
      | none, none =>
        let n : Int := digitsToNat ids
        some (Json.jint (if neg then -n else n), rest3)
      | _, _ =>
        let fracDs := fds.getD []
        let mantissa : Int := digitsToNat (ids ++ fracDs)
        let e : Int := ex.getD 0 - fracDs.length
        let q : ℚ := (mantissa : ℚ) * pow10 e
        some (Json.jnum (if neg then -q else q), rest3)

mutual

/-- A JSON value at the head of the input (CPython `scan_once`).  Fuel is
decremented on every recursive call; `jsonLoads` supplies enough. -/
def parseValue : Nat → List Char → Option (Json × List Char)
  | 0, _ => none
  | fuel + 1, cs =>
    match cs with
    | [] => none
    | c :: rest =>
      if c == quoteChar then
        (parseJsonString (rest.length + 1) rest).map (fun p => (Json.jstr p.1, p.2))
      else if c == lbraceChar then
        (parseObjBody fuel rest).map (fun p => (Json.jobj (pairsToDict p.1), p.2))
      else if c == '[' then
        (parseArrBody fuel rest).map (fun p => (Json.jarr p.1, p.2))
      else if "null".toList.isPrefixOf cs then some (Json.jnull, cs.drop 4)
      else if "true".toList.isPrefixOf cs then some (Json.jbool true, cs.drop 4)
      else if "false".toList.isPrefixOf cs then some (Json.jbool false, cs.drop 5)
      else if "NaN".toList.isPrefixOf cs then some (Json.jnan, cs.drop 3)
      else if "Infinity".toList.isPrefixOf cs then some (Json.jinf false, cs.drop 8)
      else if "-Infinity".toList.isPrefixOf cs then some (Json.jinf true, cs.drop 9)
      else parseNumber cs

/-- Body of a JSON object, after the opening brace: either an immediate
closing brace or a member list.  Returns the member pairs in order. -/
def parseObjBody : Nat → List Char → Option (List (List Char × Json) × List Char)
  | 0, _ => none
  | fuel + 1, cs =>
    let cs1 := skipJsonWs cs
    match cs1 with
    | [] => none
    | c :: rest => if c == rbraceChar then some ([], rest) else parseMembers fuel cs1

/-- A nonempty `"key": value` member list with `,` separators, ending at
the closing brace. -/
def parseMembers : Nat → List Char → Option (List (List Char × Json) × List Char)
  | 0, _ => none
  | fuel + 1, cs =>
    match cs with
    | [] => none
    | c :: rest =>
      if c == quoteChar then
        match parseJsonString (rest.length + 1) rest with
        | none => none
        | some (key, r1) =>
          match skipJsonWs r1 with
          | [] => none
          | d :: r3 =>
            if d == ':' then
              match parseValue fuel (skipJsonWs r3) with
              | none => none
              | some (v, r4) =>
                match skipJsonWs r4 with
                | [] => none
                | e :: r6 =>
                  if e == ',' then
                    match parseMembers fuel (skipJsonWs r6) with
                    | none => none
                    | some (fs, r7) => some ((key, v) :: fs, r7)
                  else if e == rbraceChar then some ([(key, v)], r6)
                  else none
            else none
      else none

/-- Body of a JSON array, after the opening bracket. -/
def parseArrBody : Nat → List Char → Option (List Json × List Char)
  | 0, _ => none
  | fuel + 1, cs =>
    let cs1 := skipJsonWs cs
    match cs1 with
    | [] => none
    | c :: rest => if c == ']' then some ([], rest) else parseElements fuel cs1

/-- A nonempty array element list with `,` separators, ending at the
closing bracket. -/
def parseElements : Nat → List Char → Option (List Json × List Char)
  | 0, _ => none
  | fuel + 1, cs =>
    match parseValue fuel cs with
    | none => none
    | some (v, r1) =>
      match skipJsonWs r1 with
      | [] => none
      | e :: r2 =>
        if e == ',' then
          match parseElements fuel (skipJsonWs r2) with
          | none => none
          | some (vs, r3) => some (v :: vs, r3)
        else if e == ']' then some ([v], r2)
        else none

end

/-- CPython `json.loads`: skip leading whitespace, scan one value, require
only whitespace after it.  `none` models a raised `JSONDecodeError`. -/
def jsonLoads (cs : List Char) : Option Json :=
  match parseValue (2 * cs.length + 4) (skipJsonWs cs) with
  | some (v, rest) => if (skipJsonWs rest).isEmpty then some v else none
  | none => none

/-- The literal "```json". -/
def tickJsonLit : List Char := "```json".toList

/-- The literal "```". -/
def ticksLit : List Char := "```".toList

/-- Response cleaning in `get_multimodal_analysis_from_gemini`
(src/app.py lines 835-851): strip, then if "```json" occurs, cut between
`find("```json") + 7` and `rfind("```")` when the latter is beyond the
former, else the same with a bare "```" fence, then strip again. -/
def cleanResponse (raw : List Char) : List Char :=
  let t0 := pyStrip raw
  let t1 :=
    if containsSub tickJsonLit t0 then
      let start := (findSub tickJsonLit t0).getD 0 + 7
      match rfindSub ticksLit t0 with
      | some e => if start < e then pyStrip (pySlice t0 start e) else t0
      | none => t0
    else if containsSub ticksLit t0 then
      let start := (findSub ticksLit t0).getD 0 + 3
      match rfindSub ticksLit t0 with
      | some e => if start < e then pyStrip (pySlice t0 start e) else t0
      | none => t0
    else t0
  pyStrip t1

/-- True when `cs`, after greedily skipping regex `\s*`, starts with "```". -/
def fenceFollows (cs : List Char) : Bool :=
  ticksLit.isPrefixOf (cs.dropWhile isPySpaceChar)

/-- The non-greedy `.*?\}` part of the fence regex: scanning `cs` (input
after the opening brace), find the shortest span ending at a `}` that is
followed by `\s*` and a closing "```".  Returns the span including its
final `}`.  Fuel is the input length plus one. -/
def fencedClose : Nat → List Char → Option (List Char)
  | 0, _ => none
  | fuel + 1, cs =>
    match cs with
    | [] => none
    | c :: rest =>
      if c == rbraceChar && fenceFollows rest then some [c]
      else (fencedClose fuel rest).map (fun tl => c :: tl)

/-- Attempt the tail `\s*(\{.*?\})\s*```` of the fence regex on the input
just after a "```json" occurrence; returns the parenthesised group. -/
def fencedTail (cs : List Char) : Option (List Char) :=
  match cs.dropWhile isPySpaceChar with
  | [] => none
  | c :: rest =>
    if c == lbraceChar then (fencedClose (rest.length + 1) rest).map (fun g => c :: g)
    else none

/-- Model of the `re.search` call on the DOTALL fence pattern — literal
"```json", then whitespace, then a non-greedy brace group, then
whitespace and a closing "```": try the pattern at each position from
the left; a match can only begin at a "```json" occurrence. -/
def fencedSearch : List Char → Option (List Char)
  | [] => none
  | c :: cs =>
    if tickJsonLit.isPrefixOf (c :: cs) then
      match fencedTail ((c :: cs).drop 7) with
      | some g => some g
      | none => fencedSearch cs
    else fencedSearch cs

/-- Strategy 1 of `_extract_json` (src/app.py lines 203-209): fenced-block
extraction; `none` when the regex does not match or the group fails to
parse (both fall through to the next strategy). -/
def fencedStrategy (text : List Char) : Option Json :=
  match fencedSearch text with
  | some g => jsonLoads g
  | none => none

/-- Strategy 2 of `_extract_json` (src/app.py lines 211-219): parse the
substring from the first `{` to the last `}` inclusive, when both exist
with the `}` strictly after the `{`. -/
def bracketStrategy (text : List Char) : Option Json :=
  match firstIdxChar lbraceChar text, lastIdxChar rbraceChar text with
  | some s, some e => if s < e then jsonLoads (pySlice text s (e + 1)) else none
  | _, _ => none

/-- Neither `{` nor `}`. -/
def notBrace (c : Char) : Bool :=
  !(c == lbraceChar) && !(c == rbraceChar)

/-- Matching of `\{[^{}]*(?:\{[^{}]*\}[^{}]*)*\}` after its opening brace:
returns the rest of the matched span (including the final `}`) and the
remaining input.  The regex admits no backtracking choices here (character
classes exclude braces), so the scan is deterministic. -/
def braceSpanLoop : Nat → List Char → Option (List Char × List Char)
  | 0, _ => none
  | fuel + 1, rest =>
    let plain := rest.takeWhile notBrace
    match rest.dropWhile notBrace with
    | [] => none
    | c :: rest2 =>
      if c == rbraceChar then some (plain ++ [c], rest2)
      else
        let inner := rest2.takeWhile notBrace
        match rest2.dropWhile notBrace with
        | d :: rest3 =>
          if d == rbraceChar then
            match braceSpanLoop fuel rest3 with
            | some (tl, rem) => some (plain ++ c :: inner ++ d :: tl, rem)
            | none => none
          else none
        | [] => none

/-- Model of the `re.findall` call on the balanced-brace pattern (an
opening brace, non-brace characters, any number of depth-one brace
groups, a closing brace): scan left to right, taking each
non-overlapping match. -/
def braceCandidates : Nat → List Char → List (List Char)
  | 0, _ => []
  | _ + 1, [] => []
  | fuel + 1, c :: cs =>
    if c == lbraceChar then
      match braceSpanLoop (cs.length + 1) cs with
      | some (span, rest) => (lbraceChar :: span) :: braceCandidates fuel rest
      | none => braceCandidates fuel cs
    else braceCandidates fuel cs

/-- Try `json.loads` on each candidate, returning the first success. -/
def firstParse : List (List Char) → Option Json
  | [] => none
  | c :: rest =>
    match jsonLoads c with
    | some v => some v
    | none => firstParse rest

/-- Strategy 3 of `_extract_json` (src/app.py lines 221-228): try every
balanced-brace span found in the text. -/
def balancedStrategy (text : List Char) : Option Json :=
  firstParse (braceCandidates (text.length + 1) text)

/-- Model of the key-value `re.search` pattern attempted at the head of
the input: a quoted nonempty key, a closing quote and colon, optional
whitespace, and a quoted value. -/
def kvMatchHere (cs : List Char) : Option (List Char × List Char) :=
  match cs with
  | [] => none
  | c :: rest =>
    if c == quoteChar then
      let key := rest.takeWhile (fun d => !(d == quoteChar))
      if key.isEmpty then none
      else
        match rest.dropWhile (fun d => !(d == quoteChar)) with
        | q :: colon :: rest2 =>
          if q == quoteChar && colon == ':' then
            match rest2.dropWhile isPySpaceChar with
            | v :: rest4 =>
              if v == quoteChar then
                let val := rest4.takeWhile (fun d => !(d == quoteChar))
                match rest4.dropWhile (fun d => !(d == quoteChar)) with
                | _ :: _ => some (key, val)
                | [] => none
              else none
            | [] => none
          else none
        | _ => none
    else none

/-- Leftmost match of the key-value regex in a line. -/
def kvSearch : List Char → Option (List Char × List Char)
  | [] => none
  | c :: cs =>
    match kvMatchHere (c :: cs) with
    | some r => some r
    | none => kvSearch cs

/-- Strategy 4 of `_extract_json` (src/app.py lines 230-243): scan each
line that contains a colon and does not start (after stripping) with `#`;
take its first `"key": "value"` match into a dict; succeed if any pair was
found. -/
def kvStrategy (text : List Char) : Option Json :=
  let pairs := (splitOnChar '\n' text).foldl
    (fun acc line =>
      if line.contains ':' && !(((pyStrip line).head?).elim false (fun c => c == '#')) then
        match kvSearch line with
        | some (k, v) => objSet acc k (Json.jstr v)
        | none => acc
      else acc) []
  if pairs.isEmpty then none else some (Json.jobj pairs)

/-- The fixed prefix of the `_extract_json` failure message. -/
def extractErrPrefix : List Char :=
  "No valid JSON found in model response. Response snippet: ".toList

/-- The snippet computation of src/app.py line 245: strip the reply,
replace newlines by spaces, truncate to 500 characters. -/
def extractionSnippet (text : List Char) : List Char :=
  ((pyStrip text).map (fun c => if c == '\n' then ' ' else c)).take 500

/-- Model of `_extract_json` (src/app.py lines 201-247): the four strategies in
order; if all fail, a `ValueError` whose message carries the bounded
snippet. -/
def extractJson (text : List Char) : Except (List Char) Json :=
  match fencedStrategy text with
  | some v => Except.ok v
  | none =>
    match bracketStrategy text with
    | some v => Except.ok v
    | none =>
      match balancedStrategy text with
      | some v => Except.ok v
      | none =>
        match kvStrategy text with
        | some v => Except.ok v
        | none => Except.error (extractErrPrefix ++ extractionSnippet text)

/-- Key "Platform". -/
def kPlatform : List Char := "Platform".toList

/-- Key "URL". -/
def kURL : List Char := "URL".toList

/-- Key "Type". -/
def kType : List Char := "Type".toList

/-- Key "error". -/
def kError : List Char := "error".toList

/-- Key "Above_Fold_Sections". -/
def kAbove : List Char := "Above_Fold_Sections".toList

/-- Key "Below_Fold_Sections". -/
def kBelow : List Char := "Below_Fold_Sections".toList

/-- Key "Section_Details". -/
def kDetails : List Char := "Section_Details".toList

/-- Key "response_length". -/
def kRespLen : List Char := "response_length".toList

/-- Python list-instance test on an optional lookup result (a missing key is not a list). -/
def isListVal : Option Json → Bool
  | some (Json.jarr _) => true
  | _ => false

/-- Python dict-instance test on an optional lookup result. -/
def isDictVal : Option Json → Bool
  | some (Json.jobj _) => true
  | _ => false

/-- The default `Above_Fold_Sections` substituted at src/app.py line 875. -/
def defaultAboveSections : Json :=
  Json.jarr [Json.jstr "Hero Section".toList, Json.jstr "Navigation Bar".toList]

/-- The default `Below_Fold_Sections` substituted at src/app.py line 879. -/
def defaultBelowSections : Json :=
  Json.jarr [Json.jstr "Footer".toList]

/-- Success-path normalization of a parsed dict
(src/app.py lines 868-890): force `Platform` and `URL` to the caller's
ground truth, then replace non-list section fields and a non-dict
`Section_Details` with fixed defaults. -/
def successNormalize (provider url : List Char) (d0 : List (List Char × Json)) :
    List (List Char × Json) :=
  let d1 := objSet d0 kPlatform (Json.jstr provider)
  let d2 := objSet d1 kURL (Json.jstr url)
  let d3 := if isListVal (objGet d2 kAbove) then d2 else objSet d2 kAbove defaultAboveSections
  let d4 := if isListVal (objGet d3 kBelow) then d3 else objSet d3 kBelow defaultBelowSections
  if isDictVal (objGet d4 kDetails) then d4 else objSet d4 kDetails (Json.jobj [])

/-- Python type name used in the `ValueError` message at src/app.py line 866. -/
def pyTypeName : Json → List Char
  | Json.jnull => "<class \x27NoneType\x27>".toList
  | Json.jbool _ => "<class \x27bool\x27>".toList
  | Json.jint _ => "<class \x27int\x27>".toList
  | Json.jnum _ => "<class \x27float\x27>".toList
  | Json.jnan => "<class \x27float\x27>".toList
  | Json.jinf _ => "<class \x27float\x27>".toList
  | Json.jstr _ => "<class \x27str\x27>".toList
  | Json.jarr _ => "<class \x27list\x27>".toList
  | Json.jobj _ => "<class \x27dict\x27>".toList

/-- The record returned from the outer `except Exception` handler of
`get_multimodal_analysis_from_gemini` (src/app.py lines 929-951). -/
def apiErrorRecord (provider url excName msg : List Char) : List (List Char × Json) :=
  [(kPlatform, Json.jstr provider),
   (kURL, Json.jstr url),
   (kType, Json.jstr "error".toList),
   ("Main_Offer".toList, Json.jstr ("API Error: ".toList ++ excName)),
   ("Primary_CTA".toList, Json.jstr "Error".toList),
   ("Secondary_CTA".toList, Json.jstr "Error".toList),
   ("Headline".toList, Json.jstr "Error".toList),
   ("Subheadline".toList, Json.jstr "Error".toList),
   ("Trust_Elements".toList, Json.jstr "Error".toList),
   ("Visual_Design".toList, Json.jstr "Error".toList),
   ("Above_Fold_Elements".toList, Json.jstr "Error".toList),
   ("Pricing_Info".toList, Json.jstr "Error".toList),
   ("Target_Audience".toList, Json.jstr "Error".toList),
   ("Unique_Selling_Points".toList, Json.jstr "Error".toList),
   ("Lead_Generation_Type".toList, Json.jstr "Error".toList),
   (kAbove, Json.jarr []),
   (kBelow, Json.jarr []),
   (kDetails, Json.jobj []),
   (kError, Json.jstr msg)]

/-- The record returned when both `json.loads` and `_extract_json` fail
(src/app.py lines 905-927).  `decodeMsg` is `str(e)` of the library's
`JSONDecodeError`, an opaque string supplied by the environment;
`respLen` is the length of the cleaned response text. -/
def parseErrorRecord (provider url decodeMsg : List Char) (respLen : Nat) :
    List (List Char × Json) :=
  [(kPlatform, Json.jstr provider),
   (kURL, Json.jstr url),
   (kType, Json.jstr "error".toList),
   ("Main_Offer".toList, Json.jstr "JSON Parse Error".toList),
   ("Primary_CTA".toList, Json.jstr "Error".toList),
   ("Secondary_CTA".toList, Json.jstr "Error".toList),
   ("Headline".toList, Json.jstr "Error".toList),
   ("Subheadline".toList, Json.jstr "Error".toList),
   ("Trust_Elements".toList, Json.jstr "Error".toList),
   ("Visual_Design".toList, Json.jstr "Error".toList),
   ("Above_Fold_Elements".toList, Json.jstr "Error".toList),
   ("Pricing_Info".toList, Json.jstr "Error".toList),
   ("Target_Audience".toList, Json.jstr "Error".toList),
   ("Unique_Selling_Points".toList, Json.jstr "Error".toList),
   ("Lead_Generation_Type".toList, Json.jstr "Error".toList),
   (kAbove, Json.jarr [Json.jstr "Parse Error".toList]),
   (kBelow, Json.jarr [Json.jstr "Parse Error".toList]),
   (kDetails, Json.jobj []),
   (kError, Json.jstr ("JSON parse error: ".toList ++ decodeMsg)),
   (kRespLen, Json.jint respLen)]

/-- Processing of a model reply in `get_multimodal_analysis_from_gemini`
(src/app.py lines 835-927): clean the text, try `json.loads`; a parsed
dict is normalized; a parsed non-dict raises `ValueError`, caught by the
outer handler; a decode failure falls back to `_extract_json` on the raw
reply (forcing `Platform`/`URL` on its result), and finally to the
parse-error record.  A non-dict from `_extract_json` would make the
`extracted["Platform"] = ...` assignment raise, swallowed by the bare
`except`, which also ends in the parse-error record. -/
def processReply (provider url raw decodeMsg : List Char) : List (List Char × Json) :=
  let cleaned := cleanResponse raw
  match jsonLoads cleaned with
  | some (Json.jobj fields) => successNormalize provider url fields
  | some v =>
    apiErrorRecord provider url "ValueError".toList ("Expected dict, got ".toList ++ pyTypeName v)
  | none =>
    match extractJson raw with
    | Except.ok (Json.jobj fs) =>
      objSet (objSet fs kPlatform (Json.jstr provider)) kURL (Json.jstr url)
    | Except.ok _ => parseErrorRecord provider url decodeMsg cleaned.length
    | Except.error _ => parseErrorRecord provider url decodeMsg cleaned.length

/-- Environment for one Gemini call: either some exception inside the
`try` (image decode, transport, auth, ...), or a final reply text.
`decodeMsg` is the message the json library would attach to a decode
error on the cleaned reply (used only on that path). -/
inductive GeminiOutcome where
  | apiError (excName msg : List Char)
  | reply (text decodeMsg : List Char)

/-- Model of `get_multimodal_analysis_from_gemini` (src/app.py lines 796-951),
as a function of its request identity and the call's outcome. -/
def getMultimodalAnalysis (provider url : List Char) (g : GeminiOutcome) :
    List (List Char × Json) :=
  match g with
  | GeminiOutcome.apiError en m => apiErrorRecord provider url en m
  | GeminiOutcome.reply t dm => processReply provider url t dm

/-- One entry of the `landing_pages` list (src/app.py lines 1489-1494):
`name`, `url`, the declared `type` (`ptype`, absent keys modelled as
`none`), and the `manual` flag. -/
structure LandingPage where
  name : List Char
  url : List Char
  ptype : Option (List Char)
  manualFlag : Bool

/-- Branch condition of src/app.py line 1271 — the "manual" flag, or the
declared type equal to "manual"
(src/app.py line 1271). -/
def isManualPage (lp : LandingPage) : Bool :=
  lp.manualFlag || lp.ptype == some "manual".toList

/-- Environment outcome of the manual-screenshot branch for one page:
file missing, an exception while reading/processing it, or a completed
Gemini call. -/
inductive ManualOutcome where
  | missing
  | readError (msg : List Char)
  | ok (g : GeminiOutcome)

/-- Environment outcome of the automatic branch for one page: a
`PlaywrightTimeoutError`, another exception during navigation or capture,
or a captured page text plus a completed Gemini call. -/
inductive AutoOutcome where
  | timeout
  | navError (msg : List Char)
  | ok (pageText : List Char) (g : GeminiOutcome)

/-- External-world behaviour for one page (the component matching the
page's mode is the one consumed). -/
structure PageEnv where
  manualOutcome : ManualOutcome
  autoOutcome : AutoOutcome

/-- A per-page failure record appended by `analyze_landing_pages`: all
four failure sites write `Platform`, `URL`, `Type` (declared type or
"unknown") and `error`. -/
def failRecord (lp : LandingPage) (err : List Char) : List (List Char × Json) :=
  [(kPlatform, Json.jstr lp.name),
   (kURL, Json.jstr lp.url),
   (kType, Json.jstr (lp.ptype.getD "unknown".toList)),
   (kError, Json.jstr err)]

/-- One iteration of the page loop in `analyze_landing_pages`
(src/app.py lines 1268-1352): branch on manual mode, and either append a
failure record or the Gemini record with its `Type` overwritten by the
declared type (default "manual" / "competitor"). -/
def stepPage (lp : LandingPage) (env : PageEnv) : List (List Char × Json) :=
  if isManualPage lp then
    match env.manualOutcome with
    | ManualOutcome.missing =>
      failRecord lp
        ("Manual screenshot \x27".toList ++ lp.name ++ "_manual.png\x27 not found.".toList)
    | ManualOutcome.readError m => failRecord lp ("Manual processing error: ".toList ++ m)
    | ManualOutcome.ok g =>
      objSet (getMultimodalAnalysis lp.name lp.url g) kType
        (Json.jstr (lp.ptype.getD "manual".toList))
  else
    match env.autoOutcome with
    | AutoOutcome.timeout => failRecord lp "Page load timeout".toList
    | AutoOutcome.navError m => failRecord lp ("Auto processing error: ".toList ++ m)
    | AutoOutcome.ok _ g =>
      objSet (getMultimodalAnalysis lp.name lp.url g) kType
        (Json.jstr (lp.ptype.getD "competitor".toList))

/-- The page loop: one record per landing page, in order. -/
def processBatch (pages : List (LandingPage × PageEnv)) : List (List (List Char × Json)) :=
  pages.map (fun pe => stepPage pe.1 pe.2)

/-- The synthetic record appended by the outer `except` of
`analyze_landing_pages` (src/app.py lines 1357-1364). -/
def systemErrorRecord (msg : List Char) : List (List Char × Json) :=
  [(kPlatform, Json.jstr "SYSTEM_ERROR".toList),
   (kURL, Json.jstr "N/A".toList),
   (kType, Json.jstr "error".toList),
   (kError, Json.jstr ("Fatal error: ".toList ++ msg))]

/-- The synthetic record appended when no data was collected
(src/app.py lines 1366-1372). -/
def noDataRecord : List (List Char × Json) :=
  [(kPlatform, Json.jstr "NO_DATA".toList),
   (kURL, Json.jstr "N/A".toList),
   (kType, Json.jstr "error".toList),
   (kError, Json.jstr "No data was collected".toList)]

/-- Record accumulation of `analyze_landing_pages` (src/app.py lines
1241-1372).  `fatal = some (k, msg)` models a failure of the shared
browser collaborator itself (e.g. `context.new_page()` raising) after `k`
pages were completed: the loop is abandoned and one `SYSTEM_ERROR` record
is appended.  If nothing was collected, a single `NO_DATA` record is
substituted. -/
def analyzeLandingPages (pages : List (LandingPage × PageEnv))
    (fatal : Option (Nat × List Char)) : List (List (List Char × Json)) :=
  let recs :=
    match fatal with
    | none => processBatch pages
    | some (k, msg) => processBatch (pages.take k) ++ [systemErrorRecord msg]
  if recs.isEmpty then [noDataRecord] else recs

/-- The constant `MAX_DIM` (src/app.py line 123). -/
def MAX_DIM : Nat := 2048

/-- Model of the round_aspect helper inside the PIL `Image.thumbnail` method:
`max(min(math.floor(number), math.ceil(number), key=key), 1)`, i.e. floor
or ceiling of the ideal size, whichever the key prefers (floor on ties),
but at least 1.  Floats are modelled as exact rationals. -/
def roundAspect (q : ℚ) (key : Int → ℚ) : Int :=
  max (if key ⌈q⌉ < key ⌊q⌋ then ⌈q⌉ else ⌊q⌋) 1

/-- Dimension selection of PIL `Image.thumbnail(size)` for
`size = (MAX_DIM, MAX_DIM)` (called at src/app.py line 196): no-op when
the image already fits; otherwise scale the aspect-constrained axis to the
rounded ideal length and the other axis to `MAX_DIM`. -/
def thumbnailDims (w h : Nat) : Nat × Nat :=
  if w ≤ MAX_DIM ∧ h ≤ MAX_DIM then (w, h)
  else
    let aspect : ℚ := (w : ℚ) / (h : ℚ)
    if aspect ≤ (MAX_DIM : ℚ) / (MAX_DIM : ℚ) then
      ((roundAspect ((MAX_DIM : ℚ) * aspect)
          (fun n => |aspect - (n : ℚ) / (MAX_DIM : ℚ)|)).toNat,
       MAX_DIM)
    else
      (MAX_DIM,
       (roundAspect ((MAX_DIM : ℚ) / aspect)
          (fun n => if n = 0 then 0 else |aspect - (MAX_DIM : ℚ) / (n : ℚ)|)).toNat)

/-- The size behaviour of `_prepare_image` (src/app.py lines 194-196):
`thumbnail` is invoked only when the larger dimension exceeds `MAX_DIM`.
(The subsequent color-mode conversion does not change dimensions.) -/
def prepareImageDims (w h : Nat) : Nat × Nat :=
  if max w h > MAX_DIM then thumbnailDims w h else (w, h)

/-- The f-string `prompt_text_section` (src/app.py lines 803-806): a fixed
header, then the first 5000 characters of the page text — or the literal
"No text content available" when the page text is empty — then a newline. -/
def textSection (pageContent : List Char) : List Char :=
  "\nText Content Preview (first 5000 chars):\n".toList ++
    (if pageContent.isEmpty then "No text content available".toList
     else pageContent.take 5000) ++
    "\n".toList
/-- Literal segment 1 of `DEFAULT_STRUCTURED_PROMPT_TEMPLATE.format(...)`
(src/app.py lines 138-192), between the interpolated values. -/
def promptSeg1 : List Char :=
  ("Analyze this landing page screenshot for ").toList

/-- Literal segment 2 of `DEFAULT_STRUCTURED_PROMPT_TEMPLATE.format(...)`
(src/app.py lines 138-192), between the interpolated values. -/
def promptSeg2 : List Char :=
  (" (").toList

/-- Literal segment 3 of `DEFAULT_STRUCTURED_PROMPT_TEMPLATE.format(...)`
(src/app.py lines 138-192), between the interpolated values. -/
def promptSeg3 : List Char :=
  (").\n\nINSTRUCTIONS:\n1. Examine the ENTIRE page - both above and below the fold\n").toList ++
  ("2. Identify ALL sections and elements present on the page\n").toList ++
  ("3. Group similar sections into general categories while preserving specific details\n").toList ++
  ("4. Return ONLY a JSON object with the exact structure shown below\n").toList ++
  ("5. No explanations, no markdown formatting, just the JSON\n\n").toList

/-- Literal segment 4 of `DEFAULT_STRUCTURED_PROMPT_TEMPLATE.format(...)`
(src/app.py lines 138-192), between the interpolated values. -/
def promptSeg4 : List Char :=
  ("\n\nYou MUST return this EXACT JSON structure:\n\n\x7b\n  \"Platform\": \"").toList

/-- Literal segment 5 of `DEFAULT_STRUCTURED_PROMPT_TEMPLATE.format(...)`
(src/app.py lines 138-192), between the interpolated values. -/
def promptSeg5 : List Char :=
  ("\",\n  \"URL\": \"").toList

/-- Literal segment 6 of `DEFAULT_STRUCTURED_PROMPT_TEMPLATE.format(...)`
(src/app.py lines 138-192), between the interpolated values. -/
def promptSeg6 : List Char :=
  ("\",\n  \"Main_Offer\": \"[describe the main product/service offered]\",\n").toList ++
  ("  \"Primary_CTA\": \"[primary call-to-action text and location]\",\n").toList ++
  ("  \"Secondary_CTA\": \"[secondary CTA if present, or \x27None\x27]\",\n  \"Headline\": \"[main headline text]\",\n").toList ++
  ("  \"Subheadline\": \"[subheadline or tagline text]\",\n").toList ++
  ("  \"Trust_Elements\": \"[list trust signals like logos, testimonials, ratings]\",\n").toList ++
  ("  \"Visual_Design\": \"[describe design, colors, layout style]\",\n").toList ++
  ("  \"Above_Fold_Elements\": \"[list key elements visible without scrolling]\",\n").toList ++
  ("  \"Pricing_Info\": \"[pricing details if shown, or \x27Not visible\x27]\",\n  \"Target_Audience\": \"[identified target audience]\",\n").toList ++
  ("  \"Unique_Selling_Points\": \"[key differentiators mentioned]\",\n").toList ++
  ("  \"Lead_Generation_Type\": \"[type: email signup, free trial, purchase, etc.]\",\n  \"Above_Fold_Sections\": [\n").toList ++
  ("    \"Hero Section\",\n    \"Navigation Bar\",\n    \"[Add other sections you identify above the fold]\"\n  ],\n").toList ++
  ("  \"Below_Fold_Sections\": [\n    \"[Group similar sections into categories:]\",\n    \"Features/Benefits Section\",\n").toList ++
  ("    \"Testimonials/Reviews\",\n    \"Pricing Information\",\n    \"FAQ Section\",\n").toList ++
  ("    \"[Add all other sections you identify below the fold]\",\n").toList ++
  ("    \"[Be descriptive but use general categories when possible]\"\n  ],\n  \"Section_Details\": \x7b\n").toList ++
  ("    \"[For each general category, provide specific implementation details]\",\n").toList ++
  ("    \"Features/Benefits Section\": \"Interactive grid showing 6 key platform features with animations\",\n").toList ++
  ("    \"Testimonials/Reviews\": \"Video testimonials carousel with 12 student success stories\",\n").toList ++
  ("    \"[Add details for each section category you identified]\"\n  \x7d\n\x7d\n\nIMPORTANT: \n").toList ++
  ("- Above_Fold_Sections and Below_Fold_Sections should be ARRAYS of section names (strings)\n").toList ++
  ("- Use general category names in the arrays when multiple similar elements exist\n").toList ++
  ("- Provide specific implementation details in Section_Details\n").toList ++
  ("- Be comprehensive - include every distinct section you can identify").toList

/-- Result of `DEFAULT_STRUCTURED_PROMPT_TEMPLATE.format(provider_name=..., url=...,
text_content_section=...)` (src/app.py lines 816-820): the template's
literal segments interleaved with the interpolated values, in template
order (provider, url, text section, provider, url). -/
def buildStructuredPrompt (provider url tsec : List Char) : List Char :=
  promptSeg1 ++ provider ++ promptSeg2 ++ url ++ promptSeg3 ++ tsec ++
    promptSeg4 ++ provider ++ promptSeg5 ++ url ++ promptSeg6

/-- The final prompt for the default path (no overrides; src/app.py lines
802-826 with `structured_prompt_override` and `prompt_override` both
absent): the structured template applied to the request's provider name,
url and text section. -/
def builtPrompt (provider url pageContent : List Char) : List Char :=
  buildStructuredPrompt provider url (textSection pageContent)

theorem successNormalize_platform (p u : List Char) (d : List (List Char × Json)) :
    objGet (successNormalize p u d) kPlatform = some (Json.jstr p) := by
  have h1 : kAbove ≠ kPlatform := by decide
  have h2 : kBelow ≠ kPlatform := by decide
  have h3 : kDetails ≠ kPlatform := by decide
  have h4 : kURL ≠ kPlatform := by decide
  simp only [successNormalize]
  split_ifs <;>
    simp only [objGet_objSet_other _ _ _ _ h1, objGet_objSet_other _ _ _ _ h2,
      objGet_objSet_other _ _ _ _ h3, objGet_objSet_other _ _ _ _ h4, objGet_objSet_same]

theorem successNormalize_url (p u : List Char) (d : List (List Char × Json)) :
    objGet (successNormalize p u d) kURL = some (Json.jstr u) := by
  have h1 : kAbove ≠ kURL := by decide
  have h2 : kBelow ≠ kURL := by decide
  have h3 : kDetails ≠ kURL := by decide
  simp only [successNormalize]
  split_ifs <;>
    simp only [objGet_objSet_other _ _ _ _ h1, objGet_objSet_other _ _ _ _ h2,
      objGet_objSet_other _ _ _ _ h3, objGet_objSet_same]

theorem processReply_platform (p u raw dm : List Char) :
    objGet (processReply p u raw dm) kPlatform = some (Json.jstr p) := by
  have h4 : kURL ≠ kPlatform := by decide
  simp only [processReply]
  cases hj : jsonLoads (cleanResponse raw) with
  | none =>
    cases he : extractJson raw with
    | ok v =>
      cases v <;>
        simp only [objGet_objSet_other _ _ _ _ h4, objGet_objSet_same] <;> rfl
    | error e => rfl
  | some v =>
    cases v with
    | jobj fields => exact successNormalize_platform p u fields
    | jnull => rfl
    | jbool b => rfl
    | jint n => rfl
    | jnum q => rfl
    | jnan => rfl
    | jinf b => rfl
    | jstr s => rfl
    | jarr xs => rfl

theorem processReply_url (p u raw dm : List Char) :
    objGet (processReply p u raw dm) kURL = some (Json.jstr u) := by
  simp only [processReply]
  cases hj : jsonLoads (cleanResponse raw) with
  | none =>
    cases he : extractJson raw with
    | ok v =>
      cases v <;> simp only [objGet_objSet_same] <;> rfl
    | error e => rfl
  | some v =>
    cases v with
    | jobj fields => exact successNormalize_url p u fields
    | jnull => rfl
    | jbool b => rfl
    | jint n => rfl
    | jnum q => rfl
    | jnan => rfl
    | jinf b => rfl
    | jstr s => rfl
    | jarr xs => rfl

theorem getMultimodal_platform (p u : List Char) (g : GeminiOutcome) :
    objGet (getMultimodalAnalysis p u g) kPlatform = some (Json.jstr p) := by
  cases g with
  | apiError en m => rfl
  | reply t dm => exact processReply_platform p u t dm

theorem getMultimodal_url (p u : List Char) (g : GeminiOutcome) :
    objGet (getMultimodalAnalysis p u g) kURL = some (Json.jstr u) := by
  cases g with
  | apiError en m => rfl
  | reply t dm => exact processReply_url p u t dm

theorem stepPage_platform (lp : LandingPage) (env : PageEnv) :
    objGet (stepPage lp env) kPlatform = some (Json.jstr lp.name) := by
  have ht : kType ≠ kPlatform := by decide
  unfold stepPage
  cases hm : isManualPage lp
  · rw [if_neg (by simp)]
    cases env.autoOutcome with
    | timeout => rfl
    | navError m => rfl
    | ok t g =>
      rw [objGet_objSet_other _ _ _ _ ht]
      exact getMultimodal_platform lp.name lp.url g
  · rw [if_pos rfl]
    cases env.manualOutcome with
    | missing => rfl
    | readError m => rfl
    | ok g =>
      rw [objGet_objSet_other _ _ _ _ ht]
      exact getMultimodal_platform lp.name lp.url g

theorem stepPage_url (lp : LandingPage) (env : PageEnv) :
    objGet (stepPage lp env) kURL = some (Json.jstr lp.url) := by
  have ht : kType ≠ kURL := by decide
  unfold stepPage
  cases hm : isManualPage lp
  · rw [if_neg (by simp)]
    cases env.autoOutcome with
    | timeout => rfl
    | navError m => rfl
    | ok t g =>
      rw [objGet_objSet_other _ _ _ _ ht]
      exact getMultimodal_url lp.name lp.url g
  · rw [if_pos rfl]
    cases env.manualOutcome with
    | missing => rfl
    | readError m => rfl
    | ok g =>
      rw [objGet_objSet_other _ _ _ _ ht]
      exact getMultimodal_url lp.name lp.url g

/-- C1: for every page request `r` processed by the batch — whether its
analysis succeeds or fails at capture, model call, or parsing (all
captured by the `PageEnv`/`GeminiOutcome` environment) — the record
produced for `r` has `Platform` equal to the derived display name of `r`
and `URL` equal to the url of `r`; model-proposed values for these keys are
discarded. -/
theorem c1_identity_invariant (pages : List (LandingPage × PageEnv))
    (lp : LandingPage) (env : PageEnv) (i : Nat)
    (hi : pages.get? i = some (lp, env)) :
    (processBatch pages).get? i = some (stepPage lp env) ∧
    objGet (stepPage lp env) kPlatform = some (Json.jstr lp.name) ∧
    objGet (stepPage lp env) kURL = some (Json.jstr lp.url) := by
  refine ⟨?_, stepPage_platform lp env, stepPage_url lp env⟩
  have hi2 : pages[i]? = some (lp, env) := by
    simpa [List.get?_eq_getElem?] using hi
  simp [processBatch, List.get?_eq_getElem?, List.getElem?_map, hi2]

theorem c1_identity_invariant_witness :
    objGet (stepPage ⟨"example".toList, "https://example.com".toList, some "client".toList, false⟩
        ⟨ManualOutcome.missing, AutoOutcome.timeout⟩) kPlatform
      = some (Json.jstr "example".toList) ∧
    objGet (stepPage ⟨"example".toList, "https://example.com".toList, some "client".toList, false⟩
        ⟨ManualOutcome.missing, AutoOutcome.timeout⟩) kURL
      = some (Json.jstr "https://example.com".toList) :=
  ⟨(c1_identity_invariant
      [(⟨"example".toList, "https://example.com".toList, some "client".toList, false⟩,
        ⟨ManualOutcome.missing, AutoOutcome.timeout⟩)] _ _ 0 rfl).2.1,
   (c1_identity_invariant
      [(⟨"example".toList, "https://example.com".toList, some "client".toList, false⟩,
        ⟨ManualOutcome.missing, AutoOutcome.timeout⟩)] _ _ 0 rfl).2.2⟩

/-- C2 as stated is false at the empty batch: `analyze_landing_pages`
appends a synthetic `NO_DATA` record when nothing was collected, so a
batch of 0 requests yields 1 output row, not 0. -/
theorem c2_counterexample :
    (analyzeLandingPages [] none).length = 1 ∧
    ([] : List (LandingPage × PageEnv)).length = 0 ∧
    analyzeLandingPages [] none = [noDataRecord] :=
  ⟨rfl, rfl, rfl⟩

/-- C2 (amended): for every nonempty batch of N page requests, the batch
produces exactly one record per request — N rows in the original request
order, even if every page fails; a failure in one page's pipeline is
caught at the page level and converted to a failure record carrying an
`error` key, never aborting the remaining pages.  (An empty batch instead
yields a single synthetic NO_DATA row.) -/
theorem c2_total_coverage (pages : List (LandingPage × PageEnv)) (hne : pages ≠ []) :
    (analyzeLandingPages pages none).length = pages.length ∧
    (∀ (lp : LandingPage) (env : PageEnv) (i : Nat),
      pages.get? i = some (lp, env) →
      (analyzeLandingPages pages none).get? i = some (stepPage lp env)) ∧
    (∀ (lp : LandingPage) (env : PageEnv),
      ((isManualPage lp = true ∧
          (env.manualOutcome = ManualOutcome.missing ∨
            ∃ m, env.manualOutcome = ManualOutcome.readError m)) ∨
        (isManualPage lp = false ∧
          (env.autoOutcome = AutoOutcome.timeout ∨
            ∃ m, env.autoOutcome = AutoOutcome.navError m))) →
      ∃ s, objGet (stepPage lp env) kError = some (Json.jstr s)) := by
  obtain ⟨hd, tl, rfl⟩ : ∃ hd tl, pages = hd :: tl := by
    cases pages with
    | nil => exact absurd rfl hne
    | cons a l => exact ⟨a, l, rfl⟩
  have hout : analyzeLandingPages (hd :: tl) none = processBatch (hd :: tl) := by
    simp [analyzeLandingPages, processBatch]
  refine ⟨?_, ?_, ?_⟩
  · rw [hout]; simp [processBatch]
  · intro lp env i hi
    rw [hout]
    have hi2 : (hd :: tl)[i]? = some (lp, env) := by
      simpa [List.get?_eq_getElem?] using hi
    show (List.map (fun pe => stepPage pe.1 pe.2) (hd :: tl)).get? i = some (stepPage lp env)
    rw [List.get?_eq_getElem?, List.getElem?_map, hi2]
    rfl
  · rintro lp env (⟨hm, hout2⟩ | ⟨hm, hout2⟩)
    · unfold stepPage
      rw [if_pos hm]
      rcases hout2 with h | ⟨m, h⟩ <;> rw [h] <;> exact ⟨_, rfl⟩
    · unfold stepPage
      rw [if_neg (by simp [hm])]
      rcases hout2 with h | ⟨m, h⟩ <;> rw [h] <;> exact ⟨_, rfl⟩

theorem c2_total_coverage_witness :
    ([((⟨"a".toList, "u".toList, some "client".toList, false⟩ : LandingPage),
       (⟨ManualOutcome.missing, AutoOutcome.timeout⟩ : PageEnv))] ≠
        ([] : List (LandingPage × PageEnv))) ∧
    (analyzeLandingPages
      [((⟨"a".toList, "u".toList, some "client".toList, false⟩ : LandingPage),
        (⟨ManualOutcome.missing, AutoOutcome.timeout⟩ : PageEnv))] none).length = 1 :=
  ⟨by simp,
   (c2_total_coverage
      [((⟨"a".toList, "u".toList, some "client".toList, false⟩ : LandingPage),
        (⟨ManualOutcome.missing, AutoOutcome.timeout⟩ : PageEnv))] (by simp)).1⟩

theorem fencedTail_shape (cs g : List Char) (h : fencedTail cs = some g) :
    ∃ g', g = lbraceChar :: g' := by
  unfold fencedTail at h
  cases hd : cs.dropWhile isPySpaceChar with
  | nil => rw [hd] at h; exact Option.noConfusion h
  | cons c rest =>
    rw [hd] at h
    dsimp only at h
    by_cases hc : (c == lbraceChar) = true
    · rw [if_pos hc] at h
      cases hfc : fencedClose (rest.length + 1) rest with
      | none => rw [hfc] at h; exact Option.noConfusion h
      | some g0 =>
        rw [hfc] at h
        simp only [Option.map_some'] at h
        cases h
        exact ⟨g0, by rw [eq_of_beq hc]⟩
    · rw [if_neg hc] at h; exact Option.noConfusion h

theorem fencedSearch_shape (t : List Char) :
    ∀ g, fencedSearch t = some g → ∃ g', g = lbraceChar :: g' := by
  induction t with
  | nil => intro g h; exact absurd h (by simp [fencedSearch])
  | cons c cs ih =>
    intro g h
    unfold fencedSearch at h
    by_cases hp : tickJsonLit.isPrefixOf (c :: cs) = true
    · rw [if_pos hp] at h
      cases hft : fencedTail ((c :: cs).drop 7) with
      | none => rw [hft] at h; exact ih g h
      | some g0 =>
        rw [hft] at h
        dsimp only at h
        cases h
        exact fencedTail_shape _ _ hft
    · rw [if_neg hp] at h; exact ih g h

theorem firstIdxChar_drop (c : Char) (l : List Char) :
    ∀ i, firstIdxChar c l = some i → ∃ tail, l.drop i = c :: tail := by
  induction l with
  | nil => intro i h; exact absurd h (by simp [firstIdxChar])
  | cons d rest ih =>
    intro i h
    unfold firstIdxChar at h
    by_cases hd : (d == c) = true
    · rw [if_pos hd] at h
      cases h
      exact ⟨rest, by simp [eq_of_beq hd]⟩
    · rw [if_neg hd] at h
      cases hr : firstIdxChar c rest with
      | none => rw [hr] at h; exact absurd h (by simp)
      | some j =>
        rw [hr] at h
        simp only [Option.map_some'] at h
        cases h
        obtain ⟨tail, ht⟩ := ih j hr
        exact ⟨tail, by simpa [List.drop_succ_cons] using ht⟩

theorem jsonLoads_cons_lbrace (cs : List Char) (v : Json)
    (h : jsonLoads (lbraceChar :: cs) = some v) : ∃ fs, v = Json.jobj fs := by
  unfold jsonLoads at h
  have hws : isJsonWs lbraceChar = false := rfl
  have hskip : skipJsonWs (lbraceChar :: cs) = lbraceChar :: cs := by
    simp [skipJsonWs, List.dropWhile_cons, hws]
  rw [hskip] at h
  obtain ⟨f, hf⟩ : ∃ f, 2 * (lbraceChar :: cs).length + 4 = f + 1 :=
    ⟨2 * (lbraceChar :: cs).length + 3, by omega⟩
  rw [hf] at h
  have h1 : (lbraceChar == quoteChar) = false := rfl
  have h2 : (lbraceChar == lbraceChar) = true := rfl
  simp only [parseValue, h1, h2, Bool.false_eq_true, if_false, if_true] at h
  cases hb : parseObjBody f cs with
  | none => rw [hb] at h; exact Option.noConfusion h
  | some pr =>
    rw [hb] at h
    simp only [Option.map_some'] at h
    by_cases hsk : (skipJsonWs pr.2).isEmpty = true
    · rw [if_pos hsk] at h
      cases h
      exact ⟨pairsToDict pr.1, rfl⟩
    · rw [if_neg hsk] at h
      exact Option.noConfusion h

theorem bracketStrategy_obj (t : List Char) (v : Json)
    (h : bracketStrategy t = some v) : ∃ fs, v = Json.jobj fs := by
  unfold bracketStrategy at h
  cases hs : firstIdxChar lbraceChar t with
  | none => rw [hs] at h; exact Option.noConfusion h
  | some s =>
    cases he : lastIdxChar rbraceChar t with
    | none => rw [hs, he] at h; exact Option.noConfusion h
    | some e =>
      rw [hs, he] at h
      dsimp only at h
      by_cases hlt : s < e
      · rw [if_pos hlt] at h
        obtain ⟨tail, ht⟩ := firstIdxChar_drop lbraceChar t s hs
        have hslice : pySlice t s (e + 1) = lbraceChar :: tail.take (e - s) := by
          unfold pySlice
          rw [ht]
          have : e + 1 - s = (e - s) + 1 := by omega
          rw [this, List.take_succ_cons]
        rw [hslice] at h
        exact jsonLoads_cons_lbrace _ v h
      · rw [if_neg hlt] at h; exact Option.noConfusion h

theorem fencedStrategy_obj (t : List Char) (v : Json)
    (h : fencedStrategy t = some v) : ∃ fs, v = Json.jobj fs := by
  unfold fencedStrategy at h
  cases hs : fencedSearch t with
  | none => rw [hs] at h; exact Option.noConfusion h
  | some g =>
    rw [hs] at h
    obtain ⟨g', rfl⟩ := fencedSearch_shape t g hs
    exact jsonLoads_cons_lbrace g' v h

theorem braceCandidates_shape :
    ∀ (fuel : Nat) (t c : List Char), c ∈ braceCandidates fuel t →
      ∃ c', c = lbraceChar :: c' := by
  intro fuel
  induction fuel with
  | zero => intro t c h; exact absurd h (by simp [braceCandidates])
  | succ f ih =>
    intro t c h
    cases t with
    | nil => exact absurd h (by simp [braceCandidates])
    | cons a rest =>
      unfold braceCandidates at h
      by_cases ha : (a == lbraceChar) = true
      · rw [if_pos ha] at h
        cases hb : braceSpanLoop (rest.length + 1) rest with
        | none => rw [hb] at h; exact ih rest c h
        | some pr =>
          obtain ⟨span, rem⟩ := pr
          rw [hb] at h
          rcases List.mem_cons.mp h with h1 | h2
          · exact ⟨span, h1⟩
          · exact ih rem c h2
      · rw [if_neg ha] at h; exact ih rest c h

theorem firstParse_mem :
    ∀ (lst : List (List Char)) (v : Json), firstParse lst = some v →
      ∃ c, c ∈ lst ∧ jsonLoads c = some v := by
  intro lst
  induction lst with
  | nil => intro v h; exact absurd h (by simp [firstParse])
  | cons c rest ih =>
    intro v h
    unfold firstParse at h
    cases hc : jsonLoads c with
    | some w =>
      rw [hc] at h
      cases h
      exact ⟨c, by simp, hc⟩
    | none =>
      rw [hc] at h
      obtain ⟨d, hd1, hd2⟩ := ih v h
      exact ⟨d, by simp [hd1], hd2⟩

theorem balancedStrategy_obj (t : List Char) (v : Json)
    (h : balancedStrategy t = some v) : ∃ fs, v = Json.jobj fs := by
  unfold balancedStrategy at h
  obtain ⟨c, hc1, hc2⟩ := firstParse_mem _ v h
  obtain ⟨c', rfl⟩ := braceCandidates_shape _ _ _ hc1
  exact jsonLoads_cons_lbrace c' v hc2

theorem kvStrategy_obj (t : List Char) (v : Json)
    (h : kvStrategy t = some v) : ∃ fs, v = Json.jobj fs := by
  simp only [kvStrategy] at h
  split at h
  · exact Option.noConfusion h
  · cases h
    exact ⟨_, rfl⟩

/-- C3: `_extract_json` tries its recovery strategies in a fixed order —
(1) markdown fence labeled json, (2) first-`\x7b`-to-last-`\x7d`
substring, (3) each balanced-brace span, (4) line-by-line key/value
reconstruction — and returns the value of the first strategy that yields
a successfully parsed JSON object (every strategy can only produce an
object, never an array or scalar); in particular the two quoted replies
extract via the fenced-block and the bracket-span strategy
respectively. -/
theorem c3_extractor_layering :
    (∀ text : List Char,
      (∀ v, fencedStrategy text = some v → extractJson text = Except.ok v) ∧
      (fencedStrategy text = none →
        ∀ v, bracketStrategy text = some v → extractJson text = Except.ok v) ∧
      (fencedStrategy text = none → bracketStrategy text = none →
        ∀ v, balancedStrategy text = some v → extractJson text = Except.ok v) ∧
      (fencedStrategy text = none → bracketStrategy text = none →
        balancedStrategy text = none →
        ∀ v, kvStrategy text = some v → extractJson text = Except.ok v) ∧
      (∀ v, extractJson text = Except.ok v → ∃ fs, v = Json.jobj fs)) ∧
    (fencedStrategy "Here is the result:\n```json\n\x7b\"a\":1\x7d\n```\nHope that helps".toList
        = some (Json.jobj [("a".toList, Json.jint 1)]) ∧
      extractJson "Here is the result:\n```json\n\x7b\"a\":1\x7d\n```\nHope that helps".toList
        = Except.ok (Json.jobj [("a".toList, Json.jint 1)])) ∧
    (fencedStrategy "Sure! \x7b\"a\":1\x7d enjoy".toList = none ∧
      bracketStrategy "Sure! \x7b\"a\":1\x7d enjoy".toList
        = some (Json.jobj [("a".toList, Json.jint 1)]) ∧
      extractJson "Sure! \x7b\"a\":1\x7d enjoy".toList
        = Except.ok (Json.jobj [("a".toList, Json.jint 1)])) := by
  refine ⟨fun text => ⟨?_, ?_, ?_, ?_, ?_⟩, ⟨rfl, rfl⟩, ⟨rfl, rfl, rfl⟩⟩
  · intro v h; simp [extractJson, h]
  · intro h0 v h; simp [extractJson, h0, h]
  · intro h0 h1 v h; simp [extractJson, h0, h1, h]
  · intro h0 h1 h2 v h; simp [extractJson, h0, h1, h2, h]
  · intro v h
    unfold extractJson at h
    cases h1 : fencedStrategy text with
    | some w => rw [h1] at h; cases h; exact fencedStrategy_obj text v h1
    | none =>
      rw [h1] at h
      cases h2 : bracketStrategy text with
      | some w => rw [h2] at h; cases h; exact bracketStrategy_obj text v h2
      | none =>
        rw [h2] at h
        cases h3 : balancedStrategy text with
        | some w => rw [h3] at h; cases h; exact balancedStrategy_obj text v h3
        | none =>
          rw [h3] at h
          cases h4 : kvStrategy text with
          | some w => rw [h4] at h; cases h; exact kvStrategy_obj text v h4
          | none => rw [h4] at h; exact Except.noConfusion h

theorem c3_extractor_layering_witness :
    fencedStrategy "Sure! \x7b\"a\":1\x7d enjoy".toList = none ∧
    extractJson "Sure! \x7b\"a\":1\x7d enjoy".toList
      = Except.ok (Json.jobj [("a".toList, Json.jint 1)]) :=
  ⟨rfl,
   (c3_extractor_layering.1 "Sure! \x7b\"a\":1\x7d enjoy".toList).2.1 rfl
     (Json.jobj [("a".toList, Json.jint 1)]) rfl⟩

/-- C4: on every reply for which all four recovery strategies fail,
`_extract_json` raises an error whose message is the fixed prefix plus a
snippet of the original reply (stripped, newlines replaced) truncated to
at most 500 characters; and when the cleaned reply also fails
`json.loads`, the failure record still carries the ground-truth
`Platform` and `URL`. -/
theorem c4_failure_diagnostics (p u raw dm : List Char)
    (h1 : fencedStrategy raw = none) (h2 : bracketStrategy raw = none)
    (h3 : balancedStrategy raw = none) (h4 : kvStrategy raw = none) :
    extractJson raw = Except.error (extractErrPrefix ++ extractionSnippet raw) ∧
    extractionSnippet raw =
      ((pyStrip raw).map (fun c => if c == '\n' then ' ' else c)).take 500 ∧
    (extractionSnippet raw).length ≤ 500 ∧
    (jsonLoads (cleanResponse raw) = none →
      processReply p u raw dm = parseErrorRecord p u dm (cleanResponse raw).length ∧
      objGet (processReply p u raw dm) kPlatform = some (Json.jstr p) ∧
      objGet (processReply p u raw dm) kURL = some (Json.jstr u) ∧
      objGet (processReply p u raw dm) kError =
        some (Json.jstr ("JSON parse error: ".toList ++ dm))) := by
  have hext : extractJson raw = Except.error (extractErrPrefix ++ extractionSnippet raw) := by
    simp [extractJson, h1, h2, h3, h4]
  refine ⟨hext, rfl, ?_, ?_⟩
  · have : extractionSnippet raw =
        ((pyStrip raw).map (fun c => if c == '\n' then ' ' else c)).take 500 := rfl
    rw [this]
    exact List.length_take_le 500 _
  · intro hload
    have hpr : processReply p u raw dm = parseErrorRecord p u dm (cleanResponse raw).length := by
      simp only [processReply, hload, hext]
    exact ⟨hpr, by rw [hpr]; rfl, by rw [hpr]; rfl, by rw [hpr]; rfl⟩

theorem c4_failure_diagnostics_witness :
    fencedStrategy "I cannot help with that.".toList = none ∧
    bracketStrategy "I cannot help with that.".toList = none ∧
    balancedStrategy "I cannot help with that.".toList = none ∧
    kvStrategy "I cannot help with that.".toList = none ∧
    jsonLoads (cleanResponse "I cannot help with that.".toList) = none ∧
    extractJson "I cannot help with that.".toList
      = Except.error
          (extractErrPrefix ++ extractionSnippet "I cannot help with that.".toList) ∧
    objGet (processReply "p".toList "u".toList "I cannot help with that.".toList "m".toList)
        kPlatform = some (Json.jstr "p".toList) ∧
    objGet (processReply "p".toList "u".toList "I cannot help with that.".toList "m".toList)
        kURL = some (Json.jstr "u".toList) :=
  ⟨rfl, rfl, rfl, rfl, rfl,
   (c4_failure_diagnostics "p".toList "u".toList "I cannot help with that.".toList "m".toList
      rfl rfl rfl rfl).1,
   ((c4_failure_diagnostics "p".toList "u".toList "I cannot help with that.".toList "m".toList
      rfl rfl rfl rfl).2.2.2 rfl).2.1,
   ((c4_failure_diagnostics "p".toList "u".toList "I cannot help with that.".toList "m".toList
      rfl rfl rfl rfl).2.2.2 rfl).2.2.1⟩

theorem roundAspect_bounds (q : ℚ) (key : Int → ℚ) (hq : 0 < q) (hle : q ≤ 2048) :
    1 ≤ roundAspect q key ∧ roundAspect q key ≤ 2048 ∧
      |((roundAspect q key : ℤ) : ℚ) - q| ≤ 1 := by
  have hf0 : (0 : ℤ) ≤ ⌊q⌋ := Int.floor_nonneg.mpr hq.le
  have hcq : q ≤ (⌈q⌉ : ℚ) := Int.le_ceil q
  have hcl : ((⌈q⌉ : ℤ) : ℚ) < q + 1 := Int.ceil_lt_add_one q
  have hfq : ((⌊q⌋ : ℤ) : ℚ) ≤ q := Int.floor_le q
  have hfl : q - 1 < ((⌊q⌋ : ℤ) : ℚ) := Int.sub_one_lt_floor q
  have hc1 : (1 : ℤ) ≤ ⌈q⌉ := Int.ceil_pos.mpr hq
  have hcle : ⌈q⌉ ≤ (2048 : ℤ) := by
    rw [Int.ceil_le]
    push_cast
    exact hle
  have hfle : ⌊q⌋ ≤ (2048 : ℤ) := le_trans (Int.floor_le_ceil q) hcle
  unfold roundAspect
  set ch := if key ⌈q⌉ < key ⌊q⌋ then ⌈q⌉ else ⌊q⌋ with hch
  have hmem : ch = ⌈q⌉ ∨ ch = ⌊q⌋ := by
    rw [hch]
    split
    · exact Or.inl rfl
    · exact Or.inr rfl
  refine ⟨le_max_right _ _, ?_, ?_⟩
  · refine max_le ?_ (by norm_num)
    rcases hmem with hcc | hcc <;> rw [hcc]
    · exact hcle
    · exact hfle
  · rcases hmem with hcc | hcc <;> rw [hcc]
    · rw [max_eq_left hc1, abs_le]
      constructor <;> linarith
    · by_cases h0 : (1 : ℤ) ≤ ⌊q⌋
      · rw [max_eq_left h0, abs_le]
        constructor <;> linarith
      · have hf00 : ⌊q⌋ = 0 := by omega
        have hql : q < 1 := by
          have hlf := Int.lt_floor_add_one q
          rw [hf00] at hlf
          push_cast at hlf
          linarith
        rw [hf00]
        have hmax : max (0 : ℤ) 1 = 1 := rfl
        rw [hmax, abs_le]
        constructor <;> push_cast <;> linarith

/-- C5: for every decoded image whose larger dimension is at most
`MAX_DIM` (2048), `_prepare_image` leaves the dimensions unchanged (no
resize); for every image whose larger dimension exceeds `MAX_DIM`, the
resized dimensions are at most `MAX_DIM` and the aspect ratio is
preserved within rounding: the constrained axis becomes exactly
`MAX_DIM`, and the other axis is within 1 pixel of the exact
aspect-preserving length. -/
theorem c5_image_resize (w h : Nat) (hw : 1 ≤ w) (hh : 1 ≤ h) :
    (max w h ≤ MAX_DIM → prepareImageDims w h = (w, h)) ∧
    (MAX_DIM < max w h →
      (prepareImageDims w h).1 ≤ MAX_DIM ∧ (prepareImageDims w h).2 ≤ MAX_DIM ∧
      (w ≤ h →
        (prepareImageDims w h).2 = MAX_DIM ∧
        |((prepareImageDims w h).1 : ℚ) - (MAX_DIM : ℚ) * w / h| ≤ 1) ∧
      (h < w →
        (prepareImageDims w h).1 = MAX_DIM ∧
        |((prepareImageDims w h).2 : ℚ) - (MAX_DIM : ℚ) * h / w| ≤ 1)) := by
  have hW : (0 : ℚ) < (w : ℚ) := by exact_mod_cast Nat.lt_of_lt_of_le Nat.zero_lt_one hw
  have hH : (0 : ℚ) < (h : ℚ) := by exact_mod_cast Nat.lt_of_lt_of_le Nat.zero_lt_one hh
  have hM : ((MAX_DIM : ℕ) : ℚ) = 2048 := by norm_num [MAX_DIM]
  constructor
  · intro hle
    unfold prepareImageDims
    rw [if_neg (by omega)]
  · intro hgt
    have hnot : ¬(w ≤ MAX_DIM ∧ h ≤ MAX_DIM) := by
      rintro ⟨a, b⟩
      have := max_le a b
      omega
    unfold prepareImageDims thumbnailDims
    rw [if_pos hgt, if_neg hnot]
    dsimp only
    rcases le_or_lt w h with hwh | hhw
    · have hasp : (w : ℚ) / (h : ℚ) ≤ (MAX_DIM : ℚ) / (MAX_DIM : ℚ) := by
        rw [hM]
        norm_num
        rw [div_le_one hH]
        exact_mod_cast hwh
      rw [if_pos hasp]
      have hq0 : 0 < (MAX_DIM : ℚ) * ((w : ℚ) / (h : ℚ)) := by
        rw [hM]
        positivity
      have hqle : (MAX_DIM : ℚ) * ((w : ℚ) / (h : ℚ)) ≤ 2048 := by
        rw [hM]
        have hd1 : (w : ℚ) / (h : ℚ) ≤ 1 := by
          rw [div_le_one hH]
          exact_mod_cast hwh
        nlinarith
      obtain ⟨hr1, hr2, hr3⟩ :=
        roundAspect_bounds ((MAX_DIM : ℚ) * ((w : ℚ) / (h : ℚ)))
          (fun n => |(w : ℚ) / (h : ℚ) - (n : ℚ) / (MAX_DIM : ℚ)|) hq0 hqle
      refine ⟨?_, le_refl _, fun _ => ⟨rfl, ?_⟩, fun hc => absurd hc (by omega)⟩
      · show (roundAspect _ _).toNat ≤ MAX_DIM
        rw [Int.toNat_le]
        exact le_trans hr2 (by norm_num [MAX_DIM])
      · show |(((roundAspect _ _).toNat : ℕ) : ℚ) - (MAX_DIM : ℚ) * w / h| ≤ 1
        have hnn : (0 : ℤ) ≤ roundAspect ((MAX_DIM : ℚ) * ((w : ℚ) / (h : ℚ)))
            (fun n => |(w : ℚ) / (h : ℚ) - (n : ℚ) / (MAX_DIM : ℚ)|) := by omega
        have hcast :
            (((roundAspect ((MAX_DIM : ℚ) * ((w : ℚ) / (h : ℚ)))
                (fun n => |(w : ℚ) / (h : ℚ) - (n : ℚ) / (MAX_DIM : ℚ)|)).toNat : ℕ) : ℚ) =
            ((roundAspect ((MAX_DIM : ℚ) * ((w : ℚ) / (h : ℚ)))
                (fun n => |(w : ℚ) / (h : ℚ) - (n : ℚ) / (MAX_DIM : ℚ)|) : ℤ) : ℚ) := by
          exact_mod_cast congrArg (fun z : ℤ => (z : ℚ)) (Int.toNat_of_nonneg hnn)
        rw [hcast, mul_div_assoc]
        exact hr3
    · have hasp : ¬((w : ℚ) / (h : ℚ) ≤ (MAX_DIM : ℚ) / (MAX_DIM : ℚ)) := by
        rw [hM]
        norm_num
        rw [one_lt_div hH]
        exact_mod_cast hhw
      rw [if_neg hasp]
      have hq0 : 0 < (MAX_DIM : ℚ) / ((w : ℚ) / (h : ℚ)) := by
        rw [hM]
        positivity
      have hd1 : (1 : ℚ) ≤ (w : ℚ) / (h : ℚ) := by
        rw [one_le_div hH]
        exact_mod_cast hhw.le
      have hqle : (MAX_DIM : ℚ) / ((w : ℚ) / (h : ℚ)) ≤ 2048 := by
        rw [hM]
        exact div_le_self (by norm_num) hd1
      obtain ⟨hr1, hr2, hr3⟩ :=
        roundAspect_bounds ((MAX_DIM : ℚ) / ((w : ℚ) / (h : ℚ)))
          (fun n => if n = 0 then 0 else |(w : ℚ) / (h : ℚ) - (MAX_DIM : ℚ) / (n : ℚ)|)
          hq0 hqle
      refine ⟨le_refl _, ?_, fun hc => absurd hc (by omega), fun _ => ⟨rfl, ?_⟩⟩
      · show (roundAspect _ _).toNat ≤ MAX_DIM
        rw [Int.toNat_le]
        exact le_trans hr2 (by norm_num [MAX_DIM])
      · show |(((roundAspect _ _).toNat : ℕ) : ℚ) - (MAX_DIM : ℚ) * h / w| ≤ 1
        have hnn : (0 : ℤ) ≤ roundAspect ((MAX_DIM : ℚ) / ((w : ℚ) / (h : ℚ)))
            (fun n => if n = 0 then 0 else |(w : ℚ) / (h : ℚ) - (MAX_DIM : ℚ) / (n : ℚ)|) := by
          omega
        have hcast :
            (((roundAspect ((MAX_DIM : ℚ) / ((w : ℚ) / (h : ℚ)))
                (fun n => if n = 0 then 0
                  else |(w : ℚ) / (h : ℚ) - (MAX_DIM : ℚ) / (n : ℚ)|)).toNat : ℕ) : ℚ) =
            ((roundAspect ((MAX_DIM : ℚ) / ((w : ℚ) / (h : ℚ)))
                (fun n => if n = 0 then 0
                  else |(w : ℚ) / (h : ℚ) - (MAX_DIM : ℚ) / (n : ℚ)|) : ℤ) : ℚ) := by
          exact_mod_cast congrArg (fun z : ℤ => (z : ℚ)) (Int.toNat_of_nonneg hnn)
        have heq : (MAX_DIM : ℚ) / ((w : ℚ) / (h : ℚ)) = (MAX_DIM : ℚ) * h / w :=
          div_div_eq_mul_div _ _ _
        rw [hcast, ← heq]
        exact hr3

theorem c5_image_resize_witness :
    ((1 : ℕ) ≤ 4096 ∧ (1 : ℕ) ≤ 1024 ∧ MAX_DIM < max 4096 1024 ∧
      (prepareImageDims 4096 1024).1 ≤ MAX_DIM ∧ (prepareImageDims 4096 1024).2 ≤ MAX_DIM) ∧
    ((1 : ℕ) ≤ 100 ∧ (1 : ℕ) ≤ 200 ∧ max 100 200 ≤ MAX_DIM ∧
      prepareImageDims 100 200 = (100, 200)) :=
  ⟨⟨by norm_num, by norm_num, by decide,
    ((c5_image_resize 4096 1024 (by norm_num) (by norm_num)).2 (by decide)).1,
    ((c5_image_resize 4096 1024 (by norm_num) (by norm_num)).2 (by decide)).2.1⟩,
   ⟨by norm_num, by norm_num, by decide,
    (c5_image_resize 100 200 (by norm_num) (by norm_num)).1 (by decide)⟩⟩

/-- C6: for every extracted page text longer than the 5000-character
budget, the built prompt contains exactly the first 5000 characters of
the page text (a hard character cut at exactly 5000, not word-aware),
embedded verbatim in the text-content block. -/
theorem c6_truncation (p u pc : List Char) (hlong : 5000 < pc.length) :
    builtPrompt p u pc =
      (promptSeg1 ++ p ++ promptSeg2 ++ u ++ promptSeg3 ++
        "\nText Content Preview (first 5000 chars):\n".toList) ++
      pc.take 5000 ++
      ("\n".toList ++ promptSeg4 ++ p ++ promptSeg5 ++ u ++ promptSeg6) ∧
    (pc.take 5000).length = 5000 ∧
    pc.take 5000 <+: pc := by
  have hne : pc.isEmpty = false := by
    cases pc
    · simp at hlong
    · rfl
  refine ⟨?_, ?_, List.take_prefix 5000 pc⟩
  · have htsec : textSection pc =
        "\nText Content Preview (first 5000 chars):\n".toList ++
          (pc.take 5000 ++ "\n".toList) := by
      unfold textSection
      rw [hne, if_neg Bool.false_ne_true, List.append_assoc]
    show promptSeg1 ++ p ++ promptSeg2 ++ u ++ promptSeg3 ++ textSection pc ++
        promptSeg4 ++ p ++ promptSeg5 ++ u ++ promptSeg6 = _
    rw [htsec]
    simp only [List.append_assoc]
  · rw [List.length_take]
    omega

theorem c6_truncation_witness :
    5000 < (List.replicate 5001 'a').length ∧
    ((List.replicate 5001 'a').take 5000).length = 5000 :=
  ⟨by rw [List.length_replicate]; norm_num,
   (c6_truncation "p".toList "u".toList (List.replicate 5001 'a')
      (by rw [List.length_replicate]; norm_num)).2.1⟩

/-- C7 is false on the code: for an empty extracted page text the
text-content block is not omitted — `prompt_text_section` is rendered
with the placeholder "No text content available", and the built prompt
contains the whole block. -/
theorem c7_counterexample :
    textSection [] =
      "\nText Content Preview (first 5000 chars):\nNo text content available\n".toList ∧
    textSection [] ≠ [] ∧
    builtPrompt "p".toList "u".toList [] =
      promptSeg1 ++ "p".toList ++ promptSeg2 ++ "u".toList ++ promptSeg3 ++
        "\nText Content Preview (first 5000 chars):\nNo text content available\n".toList ++
        promptSeg4 ++ "p".toList ++ promptSeg5 ++ "u".toList ++ promptSeg6 :=
  ⟨rfl, by decide, rfl⟩

/-- C7 (amended): for every request whose extracted page text is empty,
the text-content block is rendered with the fixed placeholder
"No text content available" in place of the page text — the block is
present in the built prompt, not omitted. -/
theorem c7_empty_text_placeholder (p u pc : List Char) (he : pc = []) :
    textSection pc =
      "\nText Content Preview (first 5000 chars):\nNo text content available\n".toList ∧
    builtPrompt p u pc =
      promptSeg1 ++ p ++ promptSeg2 ++ u ++ promptSeg3 ++
        "\nText Content Preview (first 5000 chars):\nNo text content available\n".toList ++
        promptSeg4 ++ p ++ promptSeg5 ++ u ++ promptSeg6 := by
  subst he
  exact ⟨rfl, rfl⟩

theorem c7_empty_text_placeholder_witness :
    ([] : List Char) = [] ∧
    textSection [] =
      "\nText Content Preview (first 5000 chars):\nNo text content available\n".toList :=
  ⟨rfl, (c7_empty_text_placeholder "p".toList "u".toList [] rfl).1⟩

theorem objGet_append (l1 l2 : List (List Char × Json)) (k : List Char) :
    objGet (l1 ++ l2) k =
      (match objGet l1 k with
        | some v => some v
        | none => objGet l2 k) := by
  induction l1 with
  | nil => simp [objGet]
  | cons hd tl ih =>
    obtain ⟨k0, v0⟩ := hd
    by_cases h : k0 = k <;> simp [objGet, h, ih]

/-- The reply-independent prefix of the parse-error record (its first 18
entries). -/
def parseErrorFixedPart (p u : List Char) : List (List Char × Json) :=
  [(kPlatform, Json.jstr p),
   (kURL, Json.jstr u),
   (kType, Json.jstr "error".toList),
   ("Main_Offer".toList, Json.jstr "JSON Parse Error".toList),
   ("Primary_CTA".toList, Json.jstr "Error".toList),
   ("Secondary_CTA".toList, Json.jstr "Error".toList),
   ("Headline".toList, Json.jstr "Error".toList),
   ("Subheadline".toList, Json.jstr "Error".toList),
   ("Trust_Elements".toList, Json.jstr "Error".toList),
   ("Visual_Design".toList, Json.jstr "Error".toList),
   ("Above_Fold_Elements".toList, Json.jstr "Error".toList),
   ("Pricing_Info".toList, Json.jstr "Error".toList),
   ("Target_Audience".toList, Json.jstr "Error".toList),
   ("Unique_Selling_Points".toList, Json.jstr "Error".toList),
   ("Lead_Generation_Type".toList, Json.jstr "Error".toList),
   (kAbove, Json.jarr [Json.jstr "Parse Error".toList]),
   (kBelow, Json.jarr [Json.jstr "Parse Error".toList]),
   (kDetails, Json.jobj [])]

theorem parseErrorRecord_split (p u d : List Char) (n : Nat) :
    parseErrorRecord p u d n =
      parseErrorFixedPart p u ++
        [(kError, Json.jstr ("JSON parse error: ".toList ++ d)),
         (kRespLen, Json.jint n)] := rfl

theorem objGet_parseErrorRecord_indep (p u d1 d2 : List Char) (n1 n2 : Nat)
    (k : List Char) (h1 : k ≠ kError) (h2 : k ≠ kRespLen) :
    objGet (parseErrorRecord p u d1 n1) k = objGet (parseErrorRecord p u d2 n2) k := by
  rw [parseErrorRecord_split, parseErrorRecord_split, objGet_append, objGet_append]
  cases objGet (parseErrorFixedPart p u) k with
  | some v => rfl
  | none =>
    show objGet _ k = objGet _ k
    simp [objGet, Ne.symm h1, Ne.symm h2]

/-- C8 is false as stated: the parse-failure record carries more than the
mandatory `Platform`/`URL` plus `error` — it contains fixed placeholder
schema fields (e.g. `Main_Offer`) and a `response_length` field derived
from the model reply, so two unparseable replies of different lengths
produce records that differ beyond the `error` field. -/
theorem c8_counterexample :
    jsonLoads (cleanResponse "x".toList) = none ∧
    jsonLoads (cleanResponse "xy".toList) = none ∧
    extractJson "x".toList = Except.error (extractErrPrefix ++ "x".toList) ∧
    extractJson "xy".toList = Except.error (extractErrPrefix ++ "xy".toList) ∧
    objGet (processReply "p".toList "u".toList "x".toList "m".toList) kRespLen
      = some (Json.jint 1) ∧
    objGet (processReply "p".toList "u".toList "xy".toList "m".toList) kRespLen
      = some (Json.jint 2) ∧
    objGet (processReply "p".toList "u".toList "x".toList "m".toList) "Main_Offer".toList
      = some (Json.jstr "JSON Parse Error".toList) ∧
    objGet (processReply "p".toList "u".toList "x".toList "m".toList) kError
      = some (Json.jstr ("JSON parse error: m").toList) :=
  ⟨rfl, rfl, rfl, rfl, rfl, rfl, rfl, rfl⟩

/-- C8 (amended): for every reply failing both `json.loads` (after
cleaning) and `_extract_json`, the record is exactly the parse-error
record: ground-truth `Platform`/`URL`, a string `error` explanation, a
`Type` marker, fixed placeholder values for the standard schema fields,
and a `response_length` equal to the cleaned reply's length; apart from
`error` and `response_length`, no field of the record depends on the
reply. -/
theorem c8_error_record (p u raw dm : List Char)
    (hload : jsonLoads (cleanResponse raw) = none)
    (hext : ∃ e, extractJson raw = Except.error e) :
    processReply p u raw dm = parseErrorRecord p u dm (cleanResponse raw).length ∧
    objGet (processReply p u raw dm) kPlatform = some (Json.jstr p) ∧
    objGet (processReply p u raw dm) kURL = some (Json.jstr u) ∧
    objGet (processReply p u raw dm) kError
      = some (Json.jstr ("JSON parse error: ".toList ++ dm)) ∧
    objGet (processReply p u raw dm) kRespLen
      = some (Json.jint (cleanResponse raw).length) ∧
    (∀ (raw' dm' : List Char), jsonLoads (cleanResponse raw') = none →
      (∃ e, extractJson raw' = Except.error e) →
      ∀ k, k ≠ kError → k ≠ kRespLen →
        objGet (processReply p u raw dm) k = objGet (processReply p u raw' dm') k) := by
  obtain ⟨e, he⟩ := hext
  have hpr : processReply p u raw dm = parseErrorRecord p u dm (cleanResponse raw).length := by
    simp only [processReply, hload, he]
  refine ⟨hpr, by rw [hpr]; rfl, by rw [hpr]; rfl, by rw [hpr]; rfl, by rw [hpr]; rfl, ?_⟩
  intro raw' dm' hload' hext' k hk1 hk2
  obtain ⟨e', he'⟩ := hext'
  have hpr' : processReply p u raw' dm' =
      parseErrorRecord p u dm' (cleanResponse raw').length := by
    simp only [processReply, hload', he']
  rw [hpr, hpr']
  exact objGet_parseErrorRecord_indep p u dm dm' _ _ k hk1 hk2

theorem c8_error_record_witness :
    jsonLoads (cleanResponse "x".toList) = none ∧
    extractJson "x".toList = Except.error (extractErrPrefix ++ "x".toList) ∧
    processReply "p".toList "u".toList "x".toList "m".toList
      = parseErrorRecord "p".toList "u".toList "m".toList
          (cleanResponse "x".toList).length :=
  ⟨rfl, rfl,
   (c8_error_record "p".toList "u".toList "x".toList "m".toList rfl
      ⟨extractErrPrefix ++ "x".toList, rfl⟩).1⟩

theorem stepPage_type (lp : LandingPage) (env : PageEnv) (t : List Char)
    (h : lp.ptype = some t) :
    objGet (stepPage lp env) kType = some (Json.jstr t) := by
  unfold stepPage
  cases hm : isManualPage lp
  · rw [if_neg (by simp)]
    cases env.autoOutcome with
    | timeout =>
      show objGet (failRecord lp _) kType = _
      have : objGet (failRecord lp "Page load timeout".toList) kType =
          some (Json.jstr (lp.ptype.getD "unknown".toList)) := rfl
      rw [this, h]
      rfl
    | navError m =>
      have : objGet (failRecord lp ("Auto processing error: ".toList ++ m)) kType =
          some (Json.jstr (lp.ptype.getD "unknown".toList)) := rfl
      rw [this, h]
      rfl
    | ok txt g =>
      rw [objGet_objSet_same, h]
      rfl
  · rw [if_pos rfl]
    cases env.manualOutcome with
    | missing =>
      have : objGet (failRecord lp
          ("Manual screenshot \x27".toList ++ lp.name ++ "_manual.png\x27 not found.".toList))
          kType = some (Json.jstr (lp.ptype.getD "unknown".toList)) := rfl
      rw [this, h]
      rfl
    | readError m =>
      have : objGet (failRecord lp ("Manual processing error: ".toList ++ m)) kType =
          some (Json.jstr (lp.ptype.getD "unknown".toList)) := rfl
      rw [this, h]
      rfl
    | ok g =>
      rw [objGet_objSet_same, h]
      rfl

/-- C9: every record appended to the batch output — a successful
analysis, a per-page failure record, or a synthetic SYSTEM_ERROR/NO_DATA
record — carries a `Type` key: the request's declared type for
per-request records, or "error" for synthetic records. -/
theorem c9_type_key (pages : List (LandingPage × PageEnv))
    (fatal : Option (Nat × List Char))
    (hdecl : ∀ pe ∈ pages, pe.1.ptype.isSome = true) :
    (∀ r ∈ analyzeLandingPages pages fatal, ∃ s, objGet r kType = some (Json.jstr s)) ∧
    (∀ (lp : LandingPage) (env : PageEnv) (t : List Char), lp.ptype = some t →
      objGet (stepPage lp env) kType = some (Json.jstr t)) ∧
    (∀ m, objGet (systemErrorRecord m) kType = some (Json.jstr "error".toList)) ∧
    objGet noDataRecord kType = some (Json.jstr "error".toList) := by
  refine ⟨?_, stepPage_type, fun m => rfl, rfl⟩
  have hstep : ∀ pe ∈ pages, ∃ s, objGet (stepPage pe.1 pe.2) kType = some (Json.jstr s) := by
    intro pe hpe
    obtain ⟨t, ht⟩ := Option.isSome_iff_exists.mp (hdecl pe hpe)
    exact ⟨t, stepPage_type pe.1 pe.2 t ht⟩
  intro r hr
  unfold analyzeLandingPages at hr
  cases fatal with
  | none =>
    by_cases hemp : (processBatch pages).isEmpty = true
    · simp only [hemp, if_pos] at hr
      rcases List.mem_singleton.mp hr with rfl
      exact ⟨"error".toList, rfl⟩
    · simp only [hemp, Bool.false_eq_true, if_false] at hr
      obtain ⟨pe, hpe, rfl⟩ := List.mem_map.mp hr
      exact hstep pe hpe
  | some pr =>
    obtain ⟨kcut, msg⟩ := pr
    by_cases hemp : (processBatch (pages.take kcut) ++ [systemErrorRecord msg]).isEmpty = true
    · simp only [hemp, if_pos] at hr
      rcases List.mem_singleton.mp hr with rfl
      exact ⟨"error".toList, rfl⟩
    · simp only [hemp, Bool.false_eq_true, if_false] at hr
      rcases List.mem_append.mp hr with hr1 | hr2
      · obtain ⟨pe, hpe, rfl⟩ := List.mem_map.mp hr1
        exact hstep pe (List.mem_of_mem_take hpe)
      · rcases List.mem_singleton.mp hr2 with rfl
        exact ⟨"error".toList, rfl⟩

theorem c9_type_key_witness :
    objGet (stepPage ⟨"a".toList, "u".toList, some "client".toList, false⟩
        ⟨ManualOutcome.missing, AutoOutcome.timeout⟩) kType
      = some (Json.jstr "client".toList) :=
  (c9_type_key
    [((⟨"a".toList, "u".toList, some "client".toList, false⟩ : LandingPage),
      (⟨ManualOutcome.missing, AutoOutcome.timeout⟩ : PageEnv))] none
    (by
      rintro pe hpe
      rw [List.mem_singleton] at hpe
      subst hpe
      rfl)).2.1 _ _ "client".toList rfl

theorem isListVal_true_iff (o : Option Json) :
    isListVal o = true ↔ ∃ xs, o = some (Json.jarr xs) := by
  constructor
  · intro h
    cases o with
    | none => exact Bool.noConfusion h
    | some v =>
      cases v with
      | jarr xs => exact ⟨xs, rfl⟩
      | jnull => exact Bool.noConfusion h
      | jbool b => exact Bool.noConfusion h
      | jint n => exact Bool.noConfusion h
      | jnum q => exact Bool.noConfusion h
      | jnan => exact Bool.noConfusion h
      | jinf b => exact Bool.noConfusion h
      | jstr str => exact Bool.noConfusion h
      | jobj gs => exact Bool.noConfusion h
  · rintro ⟨xs, rfl⟩
    rfl

theorem isDictVal_true_iff (o : Option Json) :
    isDictVal o = true ↔ ∃ gs, o = some (Json.jobj gs) := by
  constructor
  · intro h
    cases o with
    | none => exact Bool.noConfusion h
    | some v =>
      cases v with
      | jobj gs => exact ⟨gs, rfl⟩
      | jnull => exact Bool.noConfusion h
      | jbool b => exact Bool.noConfusion h
      | jint n => exact Bool.noConfusion h
      | jnum q => exact Bool.noConfusion h
      | jnan => exact Bool.noConfusion h
      | jinf b => exact Bool.noConfusion h
      | jstr str => exact Bool.noConfusion h
      | jarr xs => exact Bool.noConfusion h
  · rintro ⟨gs, rfl⟩
    rfl

theorem successNormalize_fields (p u : List Char) (fs : List (List Char × Json)) :
    objGet (successNormalize p u fs) kAbove =
      (if isListVal (objGet fs kAbove) then objGet fs kAbove
        else some defaultAboveSections) ∧
    objGet (successNormalize p u fs) kBelow =
      (if isListVal (objGet fs kBelow) then objGet fs kBelow
        else some defaultBelowSections) ∧
    objGet (successNormalize p u fs) kDetails =
      (if isDictVal (objGet fs kDetails) then objGet fs kDetails
        else some (Json.jobj [])) := by
  have nPA : kPlatform ≠ kAbove := by decide
  have nUA : kURL ≠ kAbove := by decide
  have nBA : kBelow ≠ kAbove := by decide
  have nDA : kDetails ≠ kAbove := by decide
  have nPB : kPlatform ≠ kBelow := by decide
  have nUB : kURL ≠ kBelow := by decide
  have nDB : kDetails ≠ kBelow := by decide
  have nAB : kAbove ≠ kBelow := by decide
  have nPD : kPlatform ≠ kDetails := by decide
  have nUD : kURL ≠ kDetails := by decide
  have nAD : kAbove ≠ kDetails := by decide
  have nBD : kBelow ≠ kDetails := by decide
  simp only [successNormalize]
  set d2 := objSet (objSet fs kPlatform (Json.jstr p)) kURL (Json.jstr u) with hd2
  have hA2 : objGet d2 kAbove = objGet fs kAbove := by
    rw [hd2, objGet_objSet_other _ _ _ _ nUA, objGet_objSet_other _ _ _ _ nPA]
  have hB2 : objGet d2 kBelow = objGet fs kBelow := by
    rw [hd2, objGet_objSet_other _ _ _ _ nUB, objGet_objSet_other _ _ _ _ nPB]
  have hD2 : objGet d2 kDetails = objGet fs kDetails := by
    rw [hd2, objGet_objSet_other _ _ _ _ nUD, objGet_objSet_other _ _ _ _ nPD]
  set d3 := if isListVal (objGet d2 kAbove) then d2
    else objSet d2 kAbove defaultAboveSections with hd3
  have hA3 : objGet d3 kAbove =
      (if isListVal (objGet fs kAbove) then objGet fs kAbove
        else some defaultAboveSections) := by
    rw [hd3, apply_ite (fun d => objGet d kAbove), objGet_objSet_same, hA2]
  have hB3 : objGet d3 kBelow = objGet fs kBelow := by
    rw [hd3, apply_ite (fun d => objGet d kBelow),
      objGet_objSet_other _ _ _ _ nAB, ite_self, hB2]
  have hD3 : objGet d3 kDetails = objGet fs kDetails := by
    rw [hd3, apply_ite (fun d => objGet d kDetails),
      objGet_objSet_other _ _ _ _ nAD, ite_self, hD2]
  set d4 := if isListVal (objGet d3 kBelow) then d3
    else objSet d3 kBelow defaultBelowSections with hd4
  have hA4 : objGet d4 kAbove =
      (if isListVal (objGet fs kAbove) then objGet fs kAbove
        else some defaultAboveSections) := by
    rw [hd4, apply_ite (fun d => objGet d kAbove),
      objGet_objSet_other _ _ _ _ nBA, ite_self, hA3]
  have hB4 : objGet d4 kBelow =
      (if isListVal (objGet fs kBelow) then objGet fs kBelow
        else some defaultBelowSections) := by
    rw [hd4, apply_ite (fun d => objGet d kBelow), objGet_objSet_same, hB3]
  have hD4 : objGet d4 kDetails = objGet fs kDetails := by
    rw [hd4, apply_ite (fun d => objGet d kDetails),
      objGet_objSet_other _ _ _ _ nBD, ite_self, hD3]
  refine ⟨?_, ?_, ?_⟩
  · rw [apply_ite (fun d => objGet d kAbove),
      objGet_objSet_other _ _ _ _ nDA, ite_self, hA4]
  · rw [apply_ite (fun d => objGet d kBelow),
      objGet_objSet_other _ _ _ _ nDB, ite_self, hB4]
  · rw [apply_ite (fun d => objGet d kDetails), objGet_objSet_same, hD4]

/-- C10: on every successfully parsed model reply (the cleaned text
`json.loads`-parses to a dict), the returned record's
`Above_Fold_Sections` and `Below_Fold_Sections` values are lists and its
`Section_Details` value is a dict; whenever the model returned a non-list
(respectively non-dict) value for these keys — or omitted them — the
value is replaced with the fixed default rather than kept. -/
theorem c10_section_types (p u raw dm : List Char) (fs : List (List Char × Json))
    (hload : jsonLoads (cleanResponse raw) = some (Json.jobj fs)) :
    processReply p u raw dm = successNormalize p u fs ∧
    (∃ xs, objGet (successNormalize p u fs) kAbove = some (Json.jarr xs)) ∧
    (∃ xs, objGet (successNormalize p u fs) kBelow = some (Json.jarr xs)) ∧
    (∃ gs, objGet (successNormalize p u fs) kDetails = some (Json.jobj gs)) ∧
    (isListVal (objGet fs kAbove) = false →
      objGet (successNormalize p u fs) kAbove = some defaultAboveSections) ∧
    (isListVal (objGet fs kBelow) = false →
      objGet (successNormalize p u fs) kBelow = some defaultBelowSections) ∧
    (isDictVal (objGet fs kDetails) = false →
      objGet (successNormalize p u fs) kDetails = some (Json.jobj [])) := by
  obtain ⟨hA, hB, hD⟩ := successNormalize_fields p u fs
  refine ⟨by simp only [processReply, hload], ?_, ?_, ?_, ?_, ?_, ?_⟩
  · rw [hA]
    by_cases hc : isListVal (objGet fs kAbove) = true
    · rw [if_pos hc]
      exact (isListVal_true_iff _).mp hc
    · rw [if_neg hc]
      exact ⟨[Json.jstr "Hero Section".toList, Json.jstr "Navigation Bar".toList], rfl⟩
  · rw [hB]
    by_cases hc : isListVal (objGet fs kBelow) = true
    · rw [if_pos hc]
      exact (isListVal_true_iff _).mp hc
    · rw [if_neg hc]
      exact ⟨[Json.jstr "Footer".toList], rfl⟩
  · rw [hD]
    by_cases hc : isDictVal (objGet fs kDetails) = true
    · rw [if_pos hc]
      exact (isDictVal_true_iff _).mp hc
    · rw [if_neg hc]
      exact ⟨[], rfl⟩
  · intro hc
    rw [hA, if_neg (by simp [hc])]
  · intro hc
    rw [hB, if_neg (by simp [hc])]
  · intro hc
    rw [hD, if_neg (by simp [hc])]

theorem c10_section_types_witness :
    jsonLoads (cleanResponse "\x7b\"a\": 1\x7d".toList)
      = some (Json.jobj [("a".toList, Json.jint 1)]) ∧
    processReply "p".toList "u".toList "\x7b\"a\": 1\x7d".toList "m".toList
      = successNormalize "p".toList "u".toList [("a".toList, Json.jint 1)] ∧
    objGet (successNormalize "p".toList "u".toList [("a".toList, Json.jint 1)]) kAbove
      = some defaultAboveSections :=
  ⟨rfl,
   (c10_section_types "p".toList "u".toList "\x7b\"a\": 1\x7d".toList "m".toList
      [("a".toList, Json.jint 1)] rfl).1,
   (c10_section_types "p".toList "u".toList "\x7b\"a\": 1\x7d".toList "m".toList
      [("a".toList, Json.jint 1)] rfl).2.2.2.2.1 rfl⟩
